import Mathlib

/-!
The command `consul acl token create`.

A shallow embedding of `command/acl/token/create/token_create.go`.

`cmd.Run` is a straight-line driver around five collaborators that live outside
the file: the flag set (`c.flags.Parse`), the HTTP client constructor
(`c.http.APIClient`), the partial-ID resolver (`acl.GetPolicyIDFromPartial`),
the remote call (`client.ACL().TokenCreate`) and the terminal (`c.UI.Error`,
`acl.PrintToken`).  The collaborators are taken as an environment `Env` of
state-passing functions over an arbitrary world `W`, so every statement about
`Run` holds for every behaviour they may have.  `Run` additionally keeps a
chronological log of each collaborator call together with what it returned.
What a run does to its collaborators is read off its final world: the
statements give that world as the collaborators' functions applied, in order,
to the initial one.

Go strings are Lean `String`s, a Go `error` is the text of its `Error()`
method (`none` for `nil`), and the Go `int` exit status is an `Int`.
-/

namespace tokencreate

/-! ## Data model -/

/-- The Go type `api.ACLTokenPolicyLink`: the two fields the command writes. -/
structure ACLTokenPolicyLink where
  ID : String
  Name : String
  deriving DecidableEq, Repr

/-- The Go type `api.ACLToken`. Its declaration is outside the file; the command
sets `Description`, `Policies` and `Local`, and `Rest` stands for all the
remaining fields (of an arbitrary type `ρ`). -/
structure ACLToken (ρ : Type) where
  Description : String
  Policies : List ACLTokenPolicyLink
  Local : Bool
  Rest : ρ
  deriving DecidableEq, Repr

/-- The flag-bound fields of `type cmd struct` (lines 25-29). `UI`, `flags`,
`http` and `help` are handles on collaborators and are part of `Env`. -/
structure cmd where
  policyIDs : List String
  policyNames : List String
  description : String
  local_ : Bool
  showMeta : Bool
  deriving DecidableEq, Repr

/-- The defaults `cmd.init` registers (lines 34-37): `BoolVar` and `StringVar`
store the default in the bound variable. The two slices are left as they are. -/
def init (c : cmd) : cmd :=
  { c with showMeta := false, local_ := false, description := "" }

/-- The constructor `New`: a zero `cmd`, then `init`. -/
def New : cmd :=
  init { policyIDs := [], policyNames := [], description := "", local_ := false, showMeta := false }

/-- The external collaborators of `Run`, as state-passing functions on a world
`W`. `κ` is the type of `*api.Client`.
* `Parse c args` is `c.flags.Parse(args)`: the `cmd` with the flag-bound fields
  as the parse left them, and the error (the HTTP flag values go to the world);
* `APIClient` is `c.http.APIClient()`;
* `GetPolicyIDFromPartial client partialID` is `acl.GetPolicyIDFromPartial`;
* `TokenCreate client newToken` is `client.ACL().TokenCreate(newToken, nil)`
  (the returned pointer may be nil; the write metadata is discarded by `Run`);
* `UIError msg` is `c.UI.Error(msg)`;
* `PrintToken token showMeta` is `acl.PrintToken(token, c.UI, showMeta)`;
* `zeroRest` is the zero value of the fields of `api.ACLToken` in `Rest`. -/
structure Env (W κ ρ : Type) where
  Parse : cmd → List String → W → (cmd × Option String) × W
  APIClient : W → (κ × Option String) × W
  GetPolicyIDFromPartial : κ → String → W → (String × Option String) × W
  TokenCreate : κ → ACLToken ρ → W → (Option (ACLToken ρ) × Option String) × W
  UIError : String → W → W
  PrintToken : Option (ACLToken ρ) → Bool → W → W
  zeroRest : ρ

/-- One collaborator call, with its arguments and what it returned. -/
inductive Event (ρ : Type) where
  | Parse (args : List String) (err : Option String)
  | UIError (msg : String)
  | APIClient (err : Option String)
  | GetPolicyIDFromPartial (partialID : String) (policyID : String) (err : Option String)
  | TokenCreate (newToken : ACLToken ρ) (token : Option (ACLToken ρ)) (err : Option String)
  | PrintToken (token : Option (ACLToken ρ)) (showMeta : Bool)
  deriving DecidableEq, Repr

/-- The world after the calls made so far, and the log of those calls, oldest first. -/
structure State (W ρ : Type) where
  world : W
  log : List (Event ρ)
  deriving DecidableEq, Repr

variable {W κ ρ : Type}

/-! ## The messages of `Run` -/

/-- Line 54: the format string has no verb, so `Sprintf` returns it as it is. -/
def fmtNoPolicy : String :=
  "Cannot create a token without specifying -policy-name or -policy-id at least once"

/-- Line 60: `fmt.Sprintf("Error connecting to Consul agent: %s", err)`. -/
def fmtConnect (err : String) : String :=
  "Error connecting to Consul agent: " ++ err

/-- Line 78: `fmt.Sprintf("Error resolving policy ID %s: %v", policyID, err)`. -/
def fmtResolve (policyID err : String) : String :=
  "Error resolving policy ID " ++ policyID ++ ": " ++ err

/-- Line 86: `fmt.Sprintf("Failed to create new token: %v", err)`. -/
def fmtCreate (err : String) : String :=
  "Failed to create new token: " ++ err

/-! ## `cmd.Run` -/

/-- The call `c.UI.Error(msg)`. -/
def uiError (E : Env W κ ρ) (msg : String) (s : State W ρ) : State W ρ :=
  { world := E.UIError msg s.world, log := s.log ++ [Event.UIError msg] }

/-- Line 72: `&api.ACLTokenPolicyLink{Name: policyName}`. -/
def nameLink (policyName : String) : ACLTokenPolicyLink :=
  { ID := "", Name := policyName }

/-- Line 81: `&api.ACLTokenPolicyLink{ID: policyID}`. -/
def idLink (policyID : String) : ACLTokenPolicyLink :=
  { ID := policyID, Name := "" }

/-- Lines 69-73: the loop over `c.policyNames`, one `append` for each name. -/
def policyNameLoop (policyNames : List String) (newToken : ACLToken ρ) : ACLToken ρ :=
  policyNames.foldl
    (fun t policyName => { t with Policies := t.Policies ++ [nameLink policyName] }) newToken

/-- Lines 75-82: the loop over `c.policyIDs`. The loop variable `policyID` is
shadowed by the first result of the resolver (`policyID, err := ...`), so both
the error message and the link use the resolver's string. `none` is the
`return 1` of line 79, `some newToken` is falling out of the loop. -/
def policyIDLoop (E : Env W κ ρ) (client : κ) :
    List String → ACLToken ρ → State W ρ → Option (ACLToken ρ) × State W ρ
  | [], newToken, s => (some newToken, s)
  | policyID :: rest, newToken, s =>
    let r := E.GetPolicyIDFromPartial client policyID s.world
    let s1 : State W ρ :=
      { world := r.2, log := s.log ++ [Event.GetPolicyIDFromPartial policyID r.1.1 r.1.2] }
    match r.1.2 with
    | some err => (none, uiError E (fmtResolve r.1.1 err) s1)
    | none =>
      policyIDLoop E client rest
        { newToken with Policies := newToken.Policies ++ [idLink r.1.1] } s1

/-- Lines 48-92: `func (c *cmd) Run(args []string) int`, started in world `w`. -/
def Run (E : Env W κ ρ) (c : cmd) (args : List String) (w : W) : Int × State W ρ :=
  let p := E.Parse c args w
  let c := p.1.1
  let s1 : State W ρ := { world := p.2, log := [Event.Parse args p.1.2] }
  match p.1.2 with
  | some _ => (1, s1)
  | none =>
    if c.policyNames.length = 0 ∧ c.policyIDs.length = 0 then
      (1, uiError E fmtNoPolicy s1)
    else
      let a := E.APIClient s1.world
      let client := a.1.1
      let s2 : State W ρ := { world := a.2, log := s1.log ++ [Event.APIClient a.1.2] }
      match a.1.2 with
      | some err => (1, uiError E (fmtConnect err) s2)
      | none =>
        let newToken : ACLToken ρ :=
          { Description := c.description, Policies := [], Local := c.local_, Rest := E.zeroRest }
        let newToken := policyNameLoop c.policyNames newToken
        match policyIDLoop E client c.policyIDs newToken s2 with
        | (none, s3) => (1, s3)
        | (some newToken, s3) =>
          let t := E.TokenCreate client newToken s3.world
          let s4 : State W ρ :=
            { world := t.2, log := s3.log ++ [Event.TokenCreate newToken t.1.1 t.1.2] }
          match t.1.2 with
          | some err => (1, uiError E (fmtCreate err) s4)
          | none =>
            (0, { world := E.PrintToken t.1.1 c.showMeta s4.world,
                  log := s4.log ++ [Event.PrintToken t.1.1 c.showMeta] })

/-! ## Reading the log -/

/-- The messages passed to `c.UI.Error`, oldest first. -/
def uiErrors (log : List (Event ρ)) : List String :=
  log.filterMap fun
    | Event.UIError msg => some msg
    | _ => none

/-- The results of the calls of `c.http.APIClient`. -/
def apiClientCalls (log : List (Event ρ)) : List (Option String) :=
  log.filterMap fun
    | Event.APIClient err => some err
    | _ => none

/-- The calls of the resolver: the partial ID passed, the ID and the error returned. -/
def resolverCalls (log : List (Event ρ)) : List (String × String × Option String) :=
  log.filterMap fun
    | Event.GetPolicyIDFromPartial partialID policyID err => some (partialID, policyID, err)
    | _ => none

/-- The calls of `TokenCreate`: the token submitted, the token and the error returned. -/
def tokenCreateCalls (log : List (Event ρ)) :
    List (ACLToken ρ × Option (ACLToken ρ) × Option String) :=
  log.filterMap fun
    | Event.TokenCreate newToken token err => some (newToken, token, err)
    | _ => none

/-- The calls of `acl.PrintToken`: the token printed and the metadata switch. -/
def printTokenCalls (log : List (Event ρ)) : List (Option (ACLToken ρ) × Bool) :=
  log.filterMap fun
    | Event.PrintToken token showMeta => some (token, showMeta)
    | _ => none

/-! ## The resolver, from the specification -/

namespace acl

/-- Modelled from the spec: the error kinds of the Prefix Resolver (section 4.1),
whose source (`acl.GetPolicyIDFromPartial`, package `command/acl`) is not part of
the file. `AmbiguousPrefixError` carries the candidates, whose number is the
conflicting count. The `ValidationError` class of section 7 is caller-level
misuse and is not produced by the resolver. -/
inductive ResolveError where
  | NotFoundError (partialID : String)
  | AmbiguousPrefixError (partialID : String) (candidates : List String)
  | UpstreamError (cause : String)
  deriving DecidableEq, Repr

/-- Modelled from the spec: "starts with", case-sensitive and exact. The comparison
is character by character, which for well-formed strings is the byte-exact one. -/
def hasPrefix (identifier partialID : String) : Bool :=
  partialID.toList.isPrefixOf identifier.toList

/-- Modelled from the spec: the distinct identifiers of the universe that start
with `partialID`. -/
def candidates (partialID : String) (U : List String) : List String :=
  (U.filter fun identifier => hasPrefix identifier partialID).dedup

/-- Modelled from the spec: the missing `acl.GetPolicyIDFromPartial` as the
`Resolve(prefix, lister)` of section 4.1, on the outcome `listing` of the one
call of the listing capability. A listing failure is `UpstreamError`; an exact
match (the partial ID is itself an identifier of the universe) is tried first
and wins; otherwise the single identifier that starts with
`partialID` is returned, zero candidates are `NotFoundError`, and two or more
distinct candidates are `AmbiguousPrefixError`. -/
def Resolve (partialID : String) (listing : Except String (List String)) :
    Except ResolveError String :=
  match listing with
  | .error cause => .error (.UpstreamError cause)
  | .ok U =>
    if partialID ∈ U then .ok partialID
    else
      match candidates partialID U with
      | [] => .error (.NotFoundError partialID)
      | [identifier] => .ok identifier
      | cs => .error (.AmbiguousPrefixError partialID cs)

/-- Modelled from the spec: the message of each error kind (section 7): distinct
per kind, naming the offending partial ID and, for ambiguity, the count; an
upstream failure is surfaced as it is. -/
def ResolveError.Error : ResolveError → String
  | .NotFoundError partialID => "no match for " ++ partialID
  | .AmbiguousPrefixError partialID cs =>
    "ambiguous, " ++ partialID ++ " matches " ++ toString cs.length ++
      " entries, please supply more characters"
  | .UpstreamError cause => cause

/-- Modelled from the spec: the missing `acl.GetPolicyIDFromPartial` in the Go
shape `(string, error)` that `Run` consumes: one call of the listing capability
`PolicyList`, then `Resolve`; the string is empty when there is an error. -/
def GetPolicyIDFromPartial (PolicyList : κ → W → Except String (List String) × W)
    (client : κ) (partialID : String) (w : W) : (String × Option String) × W :=
  let l := PolicyList client w
  match Resolve partialID l.1 with
  | .ok identifier => ((identifier, none), l.2)
  | .error e => (("", some e.Error), l.2)

end acl

/-! ## A sample environment for the worked examples -/

/-- A small stand-in for `c.flags.Parse` used in the worked examples only. It
knows the five flags of `init` in the form `-flag` or `-flag value`; the forms
`-flag=value` and `--flag`, positional arguments and the HTTP flags merged at
lines 43-44 are outside it. -/
def sampleParse : cmd → List String → cmd × Option String
  | c, [] => (c, none)
  | c, a :: rest =>
    if a = "-meta" then sampleParse { c with showMeta := true } rest
    else if a = "-local" then sampleParse { c with local_ := true } rest
    else if a = "-description" ∨ a = "-policy-id" ∨ a = "-policy-name" then
      match rest with
      | [] => (c, some ("flag needs an argument: " ++ a))
      | v :: rest =>
        if a = "-description" then sampleParse { c with description := v } rest
        else if a = "-policy-id" then sampleParse { c with policyIDs := c.policyIDs ++ [v] } rest
        else sampleParse { c with policyNames := c.policyNames ++ [v] } rest
    else (c, some ("flag provided but not defined: " ++ a))

/-- A sample environment around a given resolver: no world state, `sampleParse`,
a client that is built unless `clientErr` says otherwise, and a `TokenCreate`
that fails with `createErr` or returns the submitted token with its remaining
fields filled in by the server. -/
def sampleEnvWith (resolver : Unit → String → Unit → (String × Option String) × Unit)
    (clientErr createErr : Option String) : Env Unit Unit String where
  Parse := fun c args w => (sampleParse c args, w)
  APIClient := fun w => (((), clientErr), w)
  GetPolicyIDFromPartial := resolver
  TokenCreate := fun _ newToken w =>
    match createErr with
    | some e => ((none, some e), w)
    | none => ((some { newToken with Rest := "accessor-1" }, none), w)
  UIError := fun _ w => w
  PrintToken := fun _ _ w => w
  zeroRest := ""

/-- The sample environment with the specified resolver over the listing outcome `listing`. -/
def sampleEnv (listing : Except String (List String)) (clientErr createErr : Option String) :
    Env Unit Unit String :=
  sampleEnvWith (acl.GetPolicyIDFromPartial fun _ w => (listing, w)) clientErr createErr

/-- A resolver in the usual Go shape: on failure it returns the empty string
together with the error. It knows no policy at all. -/
def emptyResolver (_client : Unit) (partialID : String) (w : Unit) :
    (String × Option String) × Unit :=
  (("", some ("No such policy ID with prefix: " ++ partialID)), w)

/-! ## What "succeeds" means, in the words of the specification -/

/-- Every ID of the list resolves without error, one call each, in order, from
world `w`; `resolved` are the IDs returned and the last argument the world after. -/
inductive ResolvesAll (E : Env W κ ρ) (client : κ) : List String → W → List String → W → Prop where
  | nil (w : W) : ResolvesAll E client [] w [] w
  | cons {partialID policyID : String} {rest resolved : List String} {w w1 w2 : W}
      (h : E.GetPolicyIDFromPartial client partialID w = ((policyID, none), w1))
      (t : ResolvesAll E client rest w1 resolved w2) :
      ResolvesAll E client (partialID :: rest) w (policyID :: resolved) w2

/-- The success condition of the command line surface: flag parsing succeeds,
at least one policy name or policy ID was supplied, the API client is
constructed, every supplied policy ID resolves without error, and `TokenCreate`
succeeds on the token made of the description, the local switch, the names and
the resolved IDs. -/
def RunSucceeds (E : Env W κ ρ) (c : cmd) (args : List String) (w : W) : Prop :=
  ∃ (c1 : cmd) (w1 : W) (client : κ) (w2 : W) (resolved : List String) (w3 : W)
    (token : Option (ACLToken ρ)) (w4 : W),
    E.Parse c args w = ((c1, none), w1) ∧
    (c1.policyNames ≠ [] ∨ c1.policyIDs ≠ []) ∧
    E.APIClient w1 = ((client, none), w2) ∧
    ResolvesAll E client c1.policyIDs w2 resolved w3 ∧
    E.TokenCreate client
      { Description := c1.description
        Policies := c1.policyNames.map nameLink ++ resolved.map idLink
        Local := c1.local_
        Rest := E.zeroRest } w3 = ((token, none), w4)

/-! ## Auxiliary definitions for the statements about the log -/

/-- The command as flag parsing left it. -/
def parsed (E : Env W κ ρ) (c : cmd) (args : List String) (w : W) : cmd :=
  (E.Parse c args w).1.1

/-- Neither `-policy-name` nor `-policy-id` was supplied (the test of line 53). -/
def noPolicy (c : cmd) : Prop :=
  c.policyNames = [] ∧ c.policyIDs = []

/-- The log entry of a resolver call that returned no error. -/
def okCall (call : String × String) : Event ρ :=
  Event.GetPolicyIDFromPartial call.1 call.2 none

/-- The token built from the parsed command and the resolver calls made. -/
def builtToken (E : Env W κ ρ) (c : cmd) (calls : List (String × String)) : ACLToken ρ :=
  { Description := c.description
    Policies := c.policyNames.map nameLink ++ calls.map fun call => idLink call.2
    Local := c.local_
    Rest := E.zeroRest }

/-- Some call `GetPolicyIDFromPartial(client, partialID)` returned `(policyID, err)`. -/
def resolverReturned (E : Env W κ ρ) (client : κ) (partialID policyID : String)
    (err : Option String) : Prop :=
  ∃ w : W, (E.GetPolicyIDFromPartial client partialID w).1 = (policyID, err)

/-- Some call `TokenCreate(newToken, nil)` on `client` returned `(token, err)`. -/
def tokenCreateReturned (E : Env W κ ρ) (client : κ) (newToken : ACLToken ρ)
    (token : Option (ACLToken ρ)) (err : Option String) : Prop :=
  ∃ w : W, (E.TokenCreate client newToken w).1 = (token, err)

/-! ## The worlds of a run, for the statements about what reaches the collaborators -/

/-- The client `c.http.APIClient()` returns in a run. -/
def builtClient (E : Env W κ ρ) (c : cmd) (args : List String) (w : W) : κ :=
  (E.APIClient (E.Parse c args w).2).1.1

/-- The world that `c.http.APIClient()` leaves in a run. -/
def clientWorld (E : Env W κ ρ) (c : cmd) (args : List String) (w : W) : W :=
  (E.APIClient (E.Parse c args w).2).2

instance noPolicy.decidable (c : cmd) : Decidable (noPolicy c) :=
  inferInstanceAs (Decidable (c.policyNames = [] ∧ c.policyIDs = []))

/-- The resolver is called once for each entry `(partialID, policyID)` of
`calls`, in order, starting in world `w` and each call in the world the call
before it left; every call returns its `policyID` without error, and the last
one leaves the world given as the last argument. -/
inductive Resolved (E : Env W κ ρ) (client : κ) : W → List (String × String) → W → Prop where
  | nil (w : W) : Resolved E client w [] w
  | cons {partialID policyID : String} {calls : List (String × String)} {w w1 w2 : W}
      (h : E.GetPolicyIDFromPartial client partialID w = ((policyID, none), w1))
      (t : Resolved E client w1 calls w2) :
      Resolved E client w ((partialID, policyID) :: calls) w2

/-- A run that stops before `TokenCreate` can be called, with the message `msg`
it reports, the world `wb` and the log `lb` at the moment it reports: the flags
parsed, and either no policy was given (nothing was called since), or the client
could not be built (only `APIClient` was called since), or the resolver, after
returning without error for the policy IDs of `calls`, returned an error for the
next one (only `APIClient` and these resolver calls were made). -/
def StoppedBeforeCreate (E : Env W κ ρ) (c : cmd) (args : List String) (w : W)
    (msg : String) (wb : W) (lb : List (Event ρ)) : Prop :=
  (E.Parse c args w).1.2 = none ∧
  ((noPolicy (parsed E c args w) ∧ msg = fmtNoPolicy ∧ wb = (E.Parse c args w).2 ∧
      lb = [Event.Parse args none]) ∨
   (¬ noPolicy (parsed E c args w) ∧
      ∃ e, (E.APIClient (E.Parse c args w).2).1.2 = some e ∧ msg = fmtConnect e ∧
        wb = clientWorld E c args w ∧
        lb = [Event.Parse args none, Event.APIClient (some e)]) ∨
   (¬ noPolicy (parsed E c args w) ∧ (E.APIClient (E.Parse c args w).2).1.2 = none ∧
      ∃ (calls : List (String × String)) (q policyID e : String) (w3 : W),
        (calls.map Prod.fst ++ [q]) <+: (parsed E c args w).policyIDs ∧
        Resolved E (builtClient E c args w) (clientWorld E c args w) calls w3 ∧
        E.GetPolicyIDFromPartial (builtClient E c args w) q w3 = ((policyID, some e), wb) ∧
        msg = fmtResolve policyID e ∧
        lb = [Event.Parse args none, Event.APIClient none] ++ calls.map okCall ++
          [Event.GetPolicyIDFromPartial q policyID (some e)]))

/-- A run in which `TokenCreate` fails, with the message `msg` it reports, the
world `wb` and the log `lb` at the moment it reports: the flags parsed, a policy
was given, the client was built, the resolver returned without error for every
policy ID (`calls`), and `TokenCreate`, called once on the built token in the
world the last resolver call left, returned the error. -/
def CreateFailed (E : Env W κ ρ) (c : cmd) (args : List String) (w : W)
    (msg : String) (wb : W) (lb : List (Event ρ)) : Prop :=
  (E.Parse c args w).1.2 = none ∧ ¬ noPolicy (parsed E c args w) ∧
  (E.APIClient (E.Parse c args w).2).1.2 = none ∧
  ∃ (calls : List (String × String)) (w3 : W) (token : Option (ACLToken ρ)) (e : String),
    calls.map Prod.fst = (parsed E c args w).policyIDs ∧
    Resolved E (builtClient E c args w) (clientWorld E c args w) calls w3 ∧
    E.TokenCreate (builtClient E c args w) (builtToken E (parsed E c args w) calls) w3 =
      ((token, some e), wb) ∧
    msg = fmtCreate e ∧
    lb = [Event.Parse args none, Event.APIClient none] ++ calls.map okCall ++
      [Event.TokenCreate (builtToken E (parsed E c args w) calls) token (some e)]

/-- The transcript line of a token submission: the request, then `ID:Name` for each link. -/
def putLine (newToken : ACLToken String) : String :=
  newToken.Policies.foldl (fun line link => line ++ " " ++ link.ID ++ ":" ++ link.Name)
    "PUT /v1/acl/token"

/-- A sample environment whose world is a transcript: every collaborator that
reaches outside the process appends a line to it. Flags are parsed by
`sampleParse`, the resolver is the specified one over the listing outcome
`listing`, and `TokenCreate` fails with `createErr` or returns the submitted
token with its remaining fields filled in by the server. -/
def transcriptEnv (listing : Except String (List String)) (clientErr createErr : Option String) :
    Env (List String) Unit String where
  Parse := fun c args w => (sampleParse c args, w)
  APIClient := fun w => (((), clientErr), w)
  GetPolicyIDFromPartial :=
    acl.GetPolicyIDFromPartial fun _ w => (listing, w ++ ["GET /v1/acl/policies"])
  TokenCreate := fun _ newToken w =>
    match createErr with
    | some e => ((none, some e), w ++ [putLine newToken])
    | none => ((some { newToken with Rest := "accessor-1" }, none), w ++ [putLine newToken])
  UIError := fun msg w => w ++ ["UI.Error " ++ msg]
  PrintToken := fun _ showMeta w =>
    w ++ [if showMeta then "PrintToken with metadata" else "PrintToken"]
  zeroRest := ""

/-! ## Lemmas on the two loops -/

theorem policyNameLoop_eq (policyNames : List String) (newToken : ACLToken ρ) :
    policyNameLoop policyNames newToken =
      { newToken with Policies := newToken.Policies ++ policyNames.map nameLink } := by
  induction policyNames generalizing newToken with
  | nil => simp [policyNameLoop]
  | cons n ns ih =>
    have := ih { newToken with Policies := newToken.Policies ++ [nameLink n] }
    simp only [policyNameLoop, List.foldl_cons] at this ⊢
    rw [this]
    simp

theorem policyIDLoop_shape (E : Env W κ ρ) (client : κ) (ids : List String)
    (newToken : ACLToken ρ) (s : State W ρ) :
    ∃ calls : List (String × String),
      (∀ call ∈ calls, resolverReturned E client call.1 call.2 none) ∧
      (((policyIDLoop E client ids newToken s).1 =
          some { newToken with
                 Policies := newToken.Policies ++ calls.map fun call => idLink call.2 } ∧
        calls.map Prod.fst = ids ∧
        (policyIDLoop E client ids newToken s).2.log = s.log ++ calls.map okCall) ∨
      ((policyIDLoop E client ids newToken s).1 = none ∧
        ∃ (q policyID e : String), (calls.map Prod.fst ++ [q]) <+: ids ∧
          resolverReturned E client q policyID (some e) ∧
          (policyIDLoop E client ids newToken s).2.log =
            s.log ++ calls.map okCall ++
              [Event.GetPolicyIDFromPartial q policyID (some e),
               Event.UIError (fmtResolve policyID e)])) := by
  induction ids generalizing newToken s with
  | nil => exact ⟨[], by simp, Or.inl (by simp [policyIDLoop])⟩
  | cons p ps ih =>
    cases h : (E.GetPolicyIDFromPartial client p s.world).1.2 with
    | some e =>
      refine ⟨[], by simp, Or.inr ⟨by simp [policyIDLoop, h], p,
        (E.GetPolicyIDFromPartial client p s.world).1.1, e, ?_, ?_, ?_⟩⟩
      · simp
      · exact ⟨s.world, Prod.ext rfl h⟩
      · simp [policyIDLoop, h, uiError]
    | none =>
      obtain ⟨calls, hs, hc⟩ := ih
        { newToken with
          Policies := newToken.Policies ++
            [idLink (E.GetPolicyIDFromPartial client p s.world).1.1] }
        { world := (E.GetPolicyIDFromPartial client p s.world).2
          log := s.log ++ [Event.GetPolicyIDFromPartial p
            (E.GetPolicyIDFromPartial client p s.world).1.1 none] }
      refine ⟨(p, (E.GetPolicyIDFromPartial client p s.world).1.1) :: calls, ?_, ?_⟩
      · intro call hcall
        rcases List.mem_cons.1 hcall with rfl | hcall
        · exact ⟨s.world, Prod.ext rfl h⟩
        · exact hs call hcall
      rcases hc with ⟨h1, h2, h3⟩ | ⟨h1, q, policyID, e, h2, hq, h3⟩
      · refine Or.inl ⟨?_, ?_, ?_⟩
        · simp only [policyIDLoop, h]
          rw [h1]
          simp
        · simp [h2]
        · simp only [policyIDLoop, h]
          rw [h3]
          simp [okCall]
      · refine Or.inr ⟨?_, q, policyID, e, ?_, hq, ?_⟩
        · simp only [policyIDLoop, h]
          exact h1
        · simpa using h2
        · simp only [policyIDLoop, h]
          rw [h3]
          simp [okCall]

theorem policyIDLoop_of_resolvesAll (E : Env W κ ρ) (client : κ) {ids resolved : List String}
    {w w1 : W} (h : ResolvesAll E client ids w resolved w1) (newToken : ACLToken ρ)
    (s : State W ρ) (hs : s.world = w) :
    (policyIDLoop E client ids newToken s).1 =
        some { newToken with Policies := newToken.Policies ++ resolved.map idLink } ∧
      (policyIDLoop E client ids newToken s).2.world = w1 := by
  induction h generalizing newToken s with
  | nil w => simp [policyIDLoop, hs]
  | @cons p policyID rest resolved w w1 w2 h _ ih =>
    subst hs
    simp only [policyIDLoop, h]
    have := ih { newToken with Policies := newToken.Policies ++ [idLink policyID] }
      { world := w1, log := s.log ++ [Event.GetPolicyIDFromPartial p policyID none] } rfl
    refine ⟨?_, this.2⟩
    rw [this.1]
    simp

theorem resolvesAll_of_policyIDLoop (E : Env W κ ρ) (client : κ) (ids : List String)
    (newToken t : ACLToken ρ) (s : State W ρ)
    (h : (policyIDLoop E client ids newToken s).1 = some t) :
    ∃ resolved : List String,
      ResolvesAll E client ids s.world resolved (policyIDLoop E client ids newToken s).2.world ∧
      t = { newToken with Policies := newToken.Policies ++ resolved.map idLink } := by
  induction ids generalizing newToken s with
  | nil =>
    refine ⟨[], ?_, ?_⟩
    · simpa [policyIDLoop] using ResolvesAll.nil s.world
    · simp [policyIDLoop] at h
      simp [← h]
  | cons p ps ih =>
    cases hr : (E.GetPolicyIDFromPartial client p s.world).1.2 with
    | some e => simp [policyIDLoop, hr] at h
    | none =>
      simp only [policyIDLoop, hr] at h ⊢
      obtain ⟨resolved, h1, h2⟩ := ih _ _ h
      refine ⟨(E.GetPolicyIDFromPartial client p s.world).1.1 :: resolved, ?_, ?_⟩
      · refine ResolvesAll.cons ?_ h1
        rw [← hr]
      · rw [h2]
        simp

/-! ## The shape of a run -/

theorem noPolicy_iff (c : cmd) :
    (c.policyNames.length = 0 ∧ c.policyIDs.length = 0) ↔ noPolicy c := by
  simp [noPolicy, List.length_eq_zero]

/-- The six ways through `Run`, each with its exit status and its complete log. -/
theorem Run_shape (E : Env W κ ρ) (c : cmd) (args : List String) (w : W) :
    (∃ e, (E.Parse c args w).1.2 = some e ∧
      Run E c args w = (1, { world := (E.Parse c args w).2, log := [Event.Parse args (some e)] })) ∨
    ((E.Parse c args w).1.2 = none ∧ noPolicy (parsed E c args w) ∧
      Run E c args w = (1, { world := E.UIError fmtNoPolicy (E.Parse c args w).2,
                             log := [Event.Parse args none, Event.UIError fmtNoPolicy] })) ∨
    ((E.Parse c args w).1.2 = none ∧ ¬ noPolicy (parsed E c args w) ∧
      ∃ e, (E.APIClient (E.Parse c args w).2).1.2 = some e ∧ (Run E c args w).1 = 1 ∧
        (Run E c args w).2.log =
          [Event.Parse args none, Event.APIClient (some e), Event.UIError (fmtConnect e)]) ∨
    ((E.Parse c args w).1.2 = none ∧ ¬ noPolicy (parsed E c args w) ∧
      (E.APIClient (E.Parse c args w).2).1.2 = none ∧
      ∃ (calls : List (String × String)) (q policyID e : String),
        (calls.map Prod.fst ++ [q]) <+: (parsed E c args w).policyIDs ∧
        (∀ call ∈ calls,
          resolverReturned E (E.APIClient (E.Parse c args w).2).1.1 call.1 call.2 none) ∧
        resolverReturned E (E.APIClient (E.Parse c args w).2).1.1 q policyID (some e) ∧
        (Run E c args w).1 = 1 ∧
        (Run E c args w).2.log =
          [Event.Parse args none, Event.APIClient none] ++ calls.map okCall ++
            [Event.GetPolicyIDFromPartial q policyID (some e),
             Event.UIError (fmtResolve policyID e)]) ∨
    ((E.Parse c args w).1.2 = none ∧ ¬ noPolicy (parsed E c args w) ∧
      (E.APIClient (E.Parse c args w).2).1.2 = none ∧
      ∃ (calls : List (String × String)) (token : Option (ACLToken ρ)) (e : String),
        calls.map Prod.fst = (parsed E c args w).policyIDs ∧
        (∀ call ∈ calls,
          resolverReturned E (E.APIClient (E.Parse c args w).2).1.1 call.1 call.2 none) ∧
        tokenCreateReturned E (E.APIClient (E.Parse c args w).2).1.1
          (builtToken E (parsed E c args w) calls) token (some e) ∧
        (Run E c args w).1 = 1 ∧
        (Run E c args w).2.log =
          [Event.Parse args none, Event.APIClient none] ++ calls.map okCall ++
            [Event.TokenCreate (builtToken E (parsed E c args w) calls) token (some e),
             Event.UIError (fmtCreate e)]) ∨
    ((E.Parse c args w).1.2 = none ∧ ¬ noPolicy (parsed E c args w) ∧
      (E.APIClient (E.Parse c args w).2).1.2 = none ∧
      ∃ (calls : List (String × String)) (token : Option (ACLToken ρ)),
        calls.map Prod.fst = (parsed E c args w).policyIDs ∧
        (∀ call ∈ calls,
          resolverReturned E (E.APIClient (E.Parse c args w).2).1.1 call.1 call.2 none) ∧
        tokenCreateReturned E (E.APIClient (E.Parse c args w).2).1.1
          (builtToken E (parsed E c args w) calls) token none ∧
        (Run E c args w).1 = 0 ∧
        (Run E c args w).2.log =
          [Event.Parse args none, Event.APIClient none] ++ calls.map okCall ++
            [Event.TokenCreate (builtToken E (parsed E c args w) calls) token none,
             Event.PrintToken token (parsed E c args w).showMeta]) := by
  cases hp : (E.Parse c args w).1.2 with
  | some e => exact Or.inl ⟨e, rfl, by simp [Run, hp]⟩
  | none =>
    refine Or.inr ?_
    by_cases hn : noPolicy (parsed E c args w)
    · refine Or.inl ⟨rfl, hn, ?_⟩
      have hn1 := (noPolicy_iff _).2 hn
      simp only [parsed] at hn1
      simp only [Run, hp, hn1, uiError]
      simp
    · refine Or.inr ?_
      have hn1 := mt (noPolicy_iff _).1 hn
      simp only [parsed] at hn1
      cases ha : (E.APIClient (E.Parse c args w).2).1.2 with
      | some e =>
        refine Or.inl ⟨rfl, hn, e, rfl, ?_, ?_⟩
        · simp only [Run, hp, hn1, ha]
          simp
        · simp only [Run, hp, hn1, ha, uiError]
          simp
      | none =>
        refine Or.inr ?_
        obtain ⟨calls, hs, hc⟩ := policyIDLoop_shape E (E.APIClient (E.Parse c args w).2).1.1
          (E.Parse c args w).1.1.policyIDs
          (policyNameLoop (E.Parse c args w).1.1.policyNames
            { Description := (E.Parse c args w).1.1.description, Policies := [],
              Local := (E.Parse c args w).1.1.local_, Rest := E.zeroRest })
          { world := (E.APIClient (E.Parse c args w).2).2,
            log := [Event.Parse args none] ++ [Event.APIClient none] }
        rcases hl : policyIDLoop E (E.APIClient (E.Parse c args w).2).1.1
          (E.Parse c args w).1.1.policyIDs
          (policyNameLoop (E.Parse c args w).1.1.policyNames
            { Description := (E.Parse c args w).1.1.description, Policies := [],
              Local := (E.Parse c args w).1.1.local_, Rest := E.zeroRest })
          { world := (E.APIClient (E.Parse c args w).2).2,
            log := [Event.Parse args none] ++ [Event.APIClient none] } with ⟨o, s3⟩
        rw [hl] at hc
        rcases hc with ⟨h1, h2, h3⟩ | ⟨h1, q, policyID, e, h2, hq, h3⟩
        · refine Or.inr ?_
          rw [policyNameLoop_eq] at h1
          simp only [List.nil_append] at h1 h3
          subst h1
          have hb : ({ Description := (E.Parse c args w).1.1.description,
                       Policies := List.map nameLink (E.Parse c args w).1.1.policyNames ++
                         List.map (fun call => idLink call.2) calls,
                       Local := (E.Parse c args w).1.1.local_, Rest := E.zeroRest } : ACLToken ρ) =
              builtToken E (parsed E c args w) calls := rfl
          rw [hb] at hl
          cases ht : (E.TokenCreate (E.APIClient (E.Parse c args w).2).1.1
              (builtToken E (parsed E c args w) calls) s3.world).1.2 with
          | some e =>
            refine Or.inl ⟨rfl, hn, rfl, calls, (E.TokenCreate (E.APIClient (E.Parse c args w).2).1.1
              (builtToken E (parsed E c args w) calls) s3.world).1.1,
              e, h2, hs, ⟨s3.world, Prod.ext rfl ht⟩, ?_, ?_⟩
            · simp only [Run, hp, hn1, ha, hl, ht]
              simp
            · simp only [Run, hp, hn1, ha, hl, ht, uiError, h3]
              simp
          | none =>
            refine Or.inr ⟨rfl, hn, rfl, calls, (E.TokenCreate (E.APIClient (E.Parse c args w).2).1.1
              (builtToken E (parsed E c args w) calls) s3.world).1.1,
              h2, hs, ⟨s3.world, Prod.ext rfl ht⟩, ?_, ?_⟩
            · simp only [Run, hp, hn1, ha, hl, ht]
              simp
            · simp only [Run, hp, hn1, ha, hl, ht, h3]
              simp [parsed]
        · refine Or.inl ⟨rfl, hn, rfl, calls, q, policyID, e, h2, hs, hq, ?_, ?_⟩
          · simp only at h1
            subst h1
            simp only [Run, hp, hn1, ha, hl]
            simp
          · simp only at h1
            subst h1
            simp only [Run, hp, hn1, ha, hl]
            simpa using h3

/-! ## Lemmas on reading the log -/

@[simp]
theorem uiErrors_nil : uiErrors ([] : List (Event ρ)) = [] := rfl

@[simp]
theorem uiErrors_cons (ev : Event ρ) (l : List (Event ρ)) :
    uiErrors (ev :: l) =
      (match ev with
        | Event.UIError msg => [msg]
        | _ => []) ++ uiErrors l := by
  cases ev <;> rfl

@[simp]
theorem uiErrors_append (l1 l2 : List (Event ρ)) :
    uiErrors (l1 ++ l2) = uiErrors l1 ++ uiErrors l2 := by
  simp [uiErrors]

@[simp]
theorem uiErrors_okCalls (calls : List (String × String)) :
    uiErrors (calls.map (okCall : String × String → Event ρ)) = [] := by
  induction calls with
  | nil => rfl
  | cons a l ih => simp [okCall, ih]

@[simp]
theorem apiClientCalls_nil : apiClientCalls ([] : List (Event ρ)) = [] := rfl

@[simp]
theorem apiClientCalls_cons (ev : Event ρ) (l : List (Event ρ)) :
    apiClientCalls (ev :: l) =
      (match ev with
        | Event.APIClient err => [err]
        | _ => []) ++ apiClientCalls l := by
  cases ev <;> rfl

@[simp]
theorem apiClientCalls_append (l1 l2 : List (Event ρ)) :
    apiClientCalls (l1 ++ l2) = apiClientCalls l1 ++ apiClientCalls l2 := by
  simp [apiClientCalls]

@[simp]
theorem apiClientCalls_okCalls (calls : List (String × String)) :
    apiClientCalls (calls.map (okCall : String × String → Event ρ)) = [] := by
  induction calls with
  | nil => rfl
  | cons a l ih => simp [okCall, ih]

@[simp]
theorem resolverCalls_nil : resolverCalls ([] : List (Event ρ)) = [] := rfl

@[simp]
theorem resolverCalls_cons (ev : Event ρ) (l : List (Event ρ)) :
    resolverCalls (ev :: l) =
      (match ev with
        | Event.GetPolicyIDFromPartial partialID policyID err => [(partialID, policyID, err)]
        | _ => []) ++ resolverCalls l := by
  cases ev <;> rfl

@[simp]
theorem resolverCalls_append (l1 l2 : List (Event ρ)) :
    resolverCalls (l1 ++ l2) = resolverCalls l1 ++ resolverCalls l2 := by
  simp [resolverCalls]

@[simp]
theorem resolverCalls_okCalls (calls : List (String × String)) :
    resolverCalls (calls.map (okCall : String × String → Event ρ)) =
      calls.map fun call => (call.1, call.2, none) := by
  induction calls with
  | nil => rfl
  | cons a l ih => simp [okCall, ih]

@[simp]
theorem tokenCreateCalls_nil : tokenCreateCalls ([] : List (Event ρ)) = [] := rfl

@[simp]
theorem tokenCreateCalls_cons (ev : Event ρ) (l : List (Event ρ)) :
    tokenCreateCalls (ev :: l) =
      (match ev with
        | Event.TokenCreate newToken token err => [(newToken, token, err)]
        | _ => []) ++ tokenCreateCalls l := by
  cases ev <;> rfl

@[simp]
theorem tokenCreateCalls_append (l1 l2 : List (Event ρ)) :
    tokenCreateCalls (l1 ++ l2) = tokenCreateCalls l1 ++ tokenCreateCalls l2 := by
  simp [tokenCreateCalls]

@[simp]
theorem tokenCreateCalls_okCalls (calls : List (String × String)) :
    tokenCreateCalls (calls.map (okCall : String × String → Event ρ)) = [] := by
  induction calls with
  | nil => rfl
  | cons a l ih => simp [okCall, ih]

@[simp]
theorem printTokenCalls_nil : printTokenCalls ([] : List (Event ρ)) = [] := rfl

@[simp]
theorem printTokenCalls_cons (ev : Event ρ) (l : List (Event ρ)) :
    printTokenCalls (ev :: l) =
      (match ev with
        | Event.PrintToken token showMeta => [(token, showMeta)]
        | _ => []) ++ printTokenCalls l := by
  cases ev <;> rfl

@[simp]
theorem printTokenCalls_append (l1 l2 : List (Event ρ)) :
    printTokenCalls (l1 ++ l2) = printTokenCalls l1 ++ printTokenCalls l2 := by
  simp [printTokenCalls]

@[simp]
theorem printTokenCalls_okCalls (calls : List (String × String)) :
    printTokenCalls (calls.map (okCall : String × String → Event ρ)) = [] := by
  induction calls with
  | nil => rfl
  | cons a l ih => simp [okCall, ih]

/-! ## Lemmas on the specified resolver -/

theorem hasPrefix_self (p : String) : acl.hasPrefix p p = true := by
  simp [acl.hasPrefix]

theorem mem_candidates {p x : String} {U : List String} :
    x ∈ acl.candidates p U ↔ x ∈ U ∧ acl.hasPrefix x p = true := by
  simp [acl.candidates, List.mem_dedup, List.mem_filter]

theorem nodup_candidates (p : String) (U : List String) : (acl.candidates p U).Nodup := by
  simp [acl.candidates, List.nodup_dedup]

theorem eq_singleton_of_nodup {l : List String} {x : String} (hn : l.Nodup) (hx : x ∈ l)
    (hall : ∀ y ∈ l, y = x) : l = [x] := by
  match l, hn, hx, hall with
  | [a], _, _, hall => simp [hall a (by simp)]
  | a :: b :: t, hn, _, hall =>
    have ha := hall a (by simp)
    have hb := hall b (by simp)
    simp [ha, hb] at hn

theorem two_le_length_of_mem {l : List String} {x y : String} (hx : x ∈ l) (hy : y ∈ l)
    (hxy : x ≠ y) : 2 ≤ l.length := by
  match l, hx, hy with
  | [a], hx, hy =>
    simp at hx hy
    exact absurd (hx.trans hy.symm) hxy
  | _ :: _ :: _, _, _ => simp

theorem Resolve_unique {U : List String} {p x : String} (hx : x ∈ U)
    (hp : acl.hasPrefix x p = true) (huniq : ∀ y ∈ U, acl.hasPrefix y p = true → y = x) :
    acl.Resolve p (.ok U) = .ok x := by
  by_cases hmem : p ∈ U
  · have : p = x := huniq p hmem (hasPrefix_self p)
    subst this
    simp [acl.Resolve, hmem]
  · have hc : acl.candidates p U = [x] :=
      eq_singleton_of_nodup (nodup_candidates p U) (mem_candidates.2 ⟨hx, hp⟩)
        (fun y hy => huniq y (mem_candidates.1 hy).1 (mem_candidates.1 hy).2)
    simp [acl.Resolve, hmem, hc]

theorem Resolve_ambiguous {U : List String} {p x y : String} (hx : x ∈ U) (hy : y ∈ U)
    (hxy : x ≠ y) (hpx : acl.hasPrefix x p = true) (hpy : acl.hasPrefix y p = true)
    (hmem : p ∉ U) :
    acl.Resolve p (.ok U) = .error (.AmbiguousPrefixError p (acl.candidates p U)) := by
  have h2 := two_le_length_of_mem (mem_candidates.2 ⟨hx, hpx⟩) (mem_candidates.2 ⟨hy, hpy⟩) hxy
  simp only [acl.Resolve, hmem, if_false]
  match hc : acl.candidates p U, h2 with
  | a :: b :: t, _ => rfl

theorem Resolve_mem {U : List String} {p x : String} (h : acl.Resolve p (.ok U) = .ok x) :
    x ∈ U := by
  by_cases hmem : p ∈ U
  · simp [acl.Resolve, hmem] at h
    exact h ▸ hmem
  · simp only [acl.Resolve, hmem, if_false] at h
    match hc : acl.candidates p U with
    | [] => simp [hc] at h
    | [a] =>
      simp [hc] at h
      have : a ∈ acl.candidates p U := by simp [hc]
      exact h ▸ (mem_candidates.1 this).1
    | a :: b :: t => simp [hc] at h

/-- With the specified resolver over a listing that always returns `U`, a
recorded resolver return is what `Resolve` gives on `U`. -/
theorem resolverReturned_modelled {E : Env W κ ρ}
    {PolicyList : κ → W → Except String (List String) × W} {U : List String}
    (hE : E.GetPolicyIDFromPartial = acl.GetPolicyIDFromPartial PolicyList)
    (hU : ∀ client w, (PolicyList client w).1 = .ok U)
    {client : κ} {q policyID : String} {err : Option String}
    (h : resolverReturned E client q policyID err) :
    (acl.Resolve q (.ok U) = .ok policyID ∧ err = none) ∨
    (∃ e, acl.Resolve q (.ok U) = .error e ∧ policyID = "" ∧ err = some e.Error) := by
  obtain ⟨w, hw⟩ := h
  rw [hE] at hw
  simp only [acl.GetPolicyIDFromPartial, hU] at hw
  cases hr : acl.Resolve q (.ok U) with
  | ok identifier =>
    simp only [hr, Prod.mk.injEq] at hw
    exact Or.inl ⟨by rw [hw.1], hw.2.symm⟩
  | error e =>
    simp only [hr, Prod.mk.injEq] at hw
    exact Or.inr ⟨e, rfl, hw.1.symm, hw.2.symm⟩

/-! ## Consequences of the shape of a run -/

/-- Every `TokenCreate` call of a run submits the token built from the parsed
command and one successful resolver call for each policy ID, in order. -/
theorem tokenCreateCalls_built (E : Env W κ ρ) (c : cmd) (args : List String) (w : W) :
    ∀ tc ∈ tokenCreateCalls (Run E c args w).2.log,
      ∃ calls : List (String × String),
        calls.map Prod.fst = (parsed E c args w).policyIDs ∧
        (∀ call ∈ calls,
          resolverReturned E (E.APIClient (E.Parse c args w).2).1.1 call.1 call.2 none) ∧
        resolverCalls (Run E c args w).2.log = calls.map (fun call => (call.1, call.2, none)) ∧
        tc.1 = builtToken E (parsed E c args w) calls := by
  intro tc htc
  rcases Run_shape E c args w with ⟨e, _, h⟩ | ⟨_, _, h⟩ | ⟨_, _, _, _, _, h⟩ |
    ⟨_, _, _, _, _, _, _, _, _, _, _, h⟩ | ⟨_, _, _, calls, _, _, h1, h2, _, _, h⟩ |
    ⟨_, _, _, calls, _, h1, h2, _, _, h⟩
  · simp [h] at htc
  · simp [h] at htc
  · simp [h] at htc
  · simp [h] at htc
  · simp [h] at htc
    exact ⟨calls, h1, h2, by simp [h], by simp [htc]⟩
  · simp [h] at htc
    exact ⟨calls, h1, h2, by simp [h], by simp [htc]⟩

/-- Once the flags are parsed, a policy is given and the client is built, a run
either stops at a resolver call that returned an error, or calls `TokenCreate`
exactly once on the built token. -/
theorem Run_after_client (E : Env W κ ρ) (c : cmd) (args : List String) (w : W)
    (hparse : (E.Parse c args w).1.2 = none) (hpol : ¬ noPolicy (parsed E c args w))
    (hclient : (E.APIClient (E.Parse c args w).2).1.2 = none) :
    (∃ (calls : List (String × String)) (q policyID e : String),
      (calls.map Prod.fst ++ [q]) <+: (parsed E c args w).policyIDs ∧
      resolverReturned E (E.APIClient (E.Parse c args w).2).1.1 q policyID (some e)) ∨
    (∃ (calls : List (String × String)) (token : Option (ACLToken ρ)) (err : Option String),
      calls.map Prod.fst = (parsed E c args w).policyIDs ∧
      (∀ call ∈ calls,
        resolverReturned E (E.APIClient (E.Parse c args w).2).1.1 call.1 call.2 none) ∧
      tokenCreateCalls (Run E c args w).2.log =
        [(builtToken E (parsed E c args w) calls, token, err)]) := by
  rcases Run_shape E c args w with ⟨e, he, _⟩ | ⟨_, hn, _⟩ | ⟨_, _, e, he, _⟩ |
    ⟨_, _, _, calls, q, policyID, e, h1, _, hq, _, _⟩ |
    ⟨_, _, _, calls, token, e, h1, h2, _, _, h⟩ | ⟨_, _, _, calls, token, h1, h2, _, _, h⟩
  · rw [hparse] at he
    cases he
  · exact absurd hn hpol
  · rw [hclient] at he
    cases he
  · exact Or.inl ⟨calls, q, policyID, e, h1, hq⟩
  · exact Or.inr ⟨calls, token, some e, h1, h2, by simp [h]⟩
  · exact Or.inr ⟨calls, token, none, h1, h2, by simp [h]⟩

/-! ## The messages are distinct -/

/-- The messages of the four failure kinds that `Run` reports are pairwise
different, whatever the error texts and the policy ID are. -/
theorem fmt_distinct (e1 policyID e2 e3 : String) :
    fmtNoPolicy ≠ fmtConnect e1 ∧ fmtNoPolicy ≠ fmtResolve policyID e2 ∧
    fmtNoPolicy ≠ fmtCreate e3 ∧ fmtConnect e1 ≠ fmtResolve policyID e2 ∧
    fmtConnect e1 ≠ fmtCreate e3 ∧ fmtResolve policyID e2 ≠ fmtCreate e3 := by
  refine ⟨?_, ?_, ?_, ?_, ?_, ?_⟩ <;>
  · intro h
    have := congrArg String.data h
    simp [fmtNoPolicy, fmtConnect, fmtResolve, fmtCreate, String.data_append] at this

/-! ## The complete state of a run -/

theorem resolverReturned_of_resolved {E : Env W κ ρ} {client : κ} {w w1 : W}
    {calls : List (String × String)} (h : Resolved E client w calls w1) :
    ∀ call ∈ calls, resolverReturned E client call.1 call.2 none := by
  induction h with
  | nil w => simp
  | @cons p policyID calls w w1 w2 h _ ih =>
    intro call hcall
    rcases List.mem_cons.1 hcall with rfl | hcall
    · exact ⟨w, by rw [h]⟩
    · exact ih call hcall

/-- The loop over a resolved initial segment: it goes on with the rest of the
IDs, having appended one link for each call and having logged each call. -/
theorem policyIDLoop_of_resolved (E : Env W κ ρ) (client : κ) {w w1 : W}
    {calls : List (String × String)} (h : Resolved E client w calls w1)
    (rest : List String) (newToken : ACLToken ρ) (s : State W ρ) (hs : s.world = w) :
    policyIDLoop E client (calls.map Prod.fst ++ rest) newToken s =
      policyIDLoop E client rest
        { newToken with
          Policies := newToken.Policies ++ calls.map fun call => idLink call.2 }
        { world := w1, log := s.log ++ calls.map okCall } := by
  induction h generalizing newToken s with
  | nil w =>
    subst hs
    simp
  | @cons p policyID calls w w1 w2 h _ ih =>
    subst hs
    simp only [List.map_cons, List.cons_append, policyIDLoop, h, List.append_eq]
    rw [ih { newToken with Policies := newToken.Policies ++ [idLink policyID] }
      { world := w1, log := s.log ++ [Event.GetPolicyIDFromPartial p policyID none] } rfl]
    simp [okCall]

/-- The two ways out of the loop over the policy IDs, each with the complete
state it leaves. -/
theorem policyIDLoop_state (E : Env W κ ρ) (client : κ) (ids : List String)
    (newToken : ACLToken ρ) (s : State W ρ) :
    (∃ (calls : List (String × String)) (w1 : W),
      calls.map Prod.fst = ids ∧ Resolved E client s.world calls w1 ∧
      policyIDLoop E client ids newToken s =
        (some { newToken with
                Policies := newToken.Policies ++ calls.map fun call => idLink call.2 },
         { world := w1, log := s.log ++ calls.map okCall })) ∨
    (∃ (calls : List (String × String)) (q policyID e : String) (w1 w2 : W),
      (calls.map Prod.fst ++ [q]) <+: ids ∧ Resolved E client s.world calls w1 ∧
      E.GetPolicyIDFromPartial client q w1 = ((policyID, some e), w2) ∧
      policyIDLoop E client ids newToken s =
        (none,
         { world := E.UIError (fmtResolve policyID e) w2,
           log := s.log ++ calls.map okCall ++
             [Event.GetPolicyIDFromPartial q policyID (some e),
              Event.UIError (fmtResolve policyID e)] })) := by
  induction ids generalizing newToken s with
  | nil => exact Or.inl ⟨[], s.world, rfl, Resolved.nil _, by simp [policyIDLoop]⟩
  | cons p ps ih =>
    cases h : (E.GetPolicyIDFromPartial client p s.world).1.2 with
    | some e =>
      refine Or.inr ⟨[], p, (E.GetPolicyIDFromPartial client p s.world).1.1, e, s.world,
        (E.GetPolicyIDFromPartial client p s.world).2, by simp, Resolved.nil _,
        Prod.ext (Prod.ext rfl h) rfl, ?_⟩
      simp [policyIDLoop, h, uiError]
    | none =>
      have hcall : E.GetPolicyIDFromPartial client p s.world =
          (((E.GetPolicyIDFromPartial client p s.world).1.1, none),
            (E.GetPolicyIDFromPartial client p s.world).2) := Prod.ext (Prod.ext rfl h) rfl
      rcases ih
        { newToken with
          Policies := newToken.Policies ++
            [idLink (E.GetPolicyIDFromPartial client p s.world).1.1] }
        { world := (E.GetPolicyIDFromPartial client p s.world).2
          log := s.log ++ [Event.GetPolicyIDFromPartial p
            (E.GetPolicyIDFromPartial client p s.world).1.1 none] } with
        ⟨calls, w1, h1, h2, h3⟩ | ⟨calls, q, policyID, e, w1, w2, h1, h2, hq, h3⟩
      · refine Or.inl ⟨(p, (E.GetPolicyIDFromPartial client p s.world).1.1) :: calls, w1,
          by simp [h1], Resolved.cons hcall h2, ?_⟩
        simp only [policyIDLoop, h]
        rw [h3]
        simp [okCall]
      · refine Or.inr ⟨(p, (E.GetPolicyIDFromPartial client p s.world).1.1) :: calls, q,
          policyID, e, w1, w2, by simpa using h1, Resolved.cons hcall h2, hq, ?_⟩
        simp only [policyIDLoop, h]
        rw [h3]
        simp [okCall]

/-- What `Run` does once the flags are parsed, a policy is given and the client
is built, in terms of the way the loop over the policy IDs ends. -/
theorem Run_eq_of_loop (E : Env W κ ρ) (c : cmd) (args : List String) (w : W)
    (hparse : (E.Parse c args w).1.2 = none) (hpol : ¬ noPolicy (parsed E c args w))
    (hclient : (E.APIClient (E.Parse c args w).2).1.2 = none)
    {o : Option (ACLToken ρ)} {s3 : State W ρ}
    (hl : policyIDLoop E (builtClient E c args w) (parsed E c args w).policyIDs
      (builtToken E (parsed E c args w) [])
      { world := clientWorld E c args w,
        log := [Event.Parse args none, Event.APIClient none] } = (o, s3)) :
    Run E c args w =
      match o with
      | none => (1, s3)
      | some newToken =>
        match (E.TokenCreate (builtClient E c args w) newToken s3.world).1.2 with
        | some e =>
          (1, { world := E.UIError (fmtCreate e)
                  (E.TokenCreate (builtClient E c args w) newToken s3.world).2,
                log := s3.log ++
                  [Event.TokenCreate newToken
                    (E.TokenCreate (builtClient E c args w) newToken s3.world).1.1 (some e),
                   Event.UIError (fmtCreate e)] })
        | none =>
          (0, { world := E.PrintToken
                  (E.TokenCreate (builtClient E c args w) newToken s3.world).1.1
                  (parsed E c args w).showMeta
                  (E.TokenCreate (builtClient E c args w) newToken s3.world).2,
                log := s3.log ++
                  [Event.TokenCreate newToken
                    (E.TokenCreate (builtClient E c args w) newToken s3.world).1.1 none,
                   Event.PrintToken
                    (E.TokenCreate (builtClient E c args w) newToken s3.world).1.1
                    (parsed E c args w).showMeta] }) := by
  have hn1 := mt (noPolicy_iff _).1 hpol
  simp only [parsed] at hn1
  have hl2 : policyIDLoop E (E.APIClient (E.Parse c args w).2).1.1
      (E.Parse c args w).1.1.policyIDs
      (policyNameLoop (E.Parse c args w).1.1.policyNames
        { Description := (E.Parse c args w).1.1.description, Policies := [],
          Local := (E.Parse c args w).1.1.local_, Rest := E.zeroRest })
      { world := (E.APIClient (E.Parse c args w).2).2,
        log := [Event.Parse args none] ++ [Event.APIClient none] } = (o, s3) := by
    rw [policyNameLoop_eq]
    simpa [builtToken, builtClient, clientWorld, parsed] using hl
  cases o with
  | none =>
    simp only [Run, hparse, hn1, hclient, hl2]
    simp
  | some newToken =>
    cases ht : (E.TokenCreate (builtClient E c args w) newToken s3.world).1.2 with
    | some e =>
      have ht2 := ht
      simp only [builtClient] at ht2
      simp only [Run, hparse, hn1, hclient, hl2, ht2, uiError]
      simp [builtClient, ht2]
    | none =>
      have ht2 := ht
      simp only [builtClient] at ht2
      simp only [Run, hparse, hn1, hclient, hl2, ht2]
      simp [builtClient, parsed, ht2]

/-- A flag-parse failure: `Run` returns 1 in the world the parse left. -/
theorem Run_of_parse_failure (E : Env W κ ρ) (c : cmd) (args : List String) (w : W)
    {e : String} (hparse : (E.Parse c args w).1.2 = some e) :
    Run E c args w =
      (1, { world := (E.Parse c args w).2, log := [Event.Parse args (some e)] }) := by
  simp [Run, hparse]

/-- No policy reference: `Run` writes the one message and returns 1. -/
theorem Run_of_noPolicy (E : Env W κ ρ) (c : cmd) (args : List String) (w : W)
    (hparse : (E.Parse c args w).1.2 = none) (hpol : noPolicy (parsed E c args w)) :
    Run E c args w =
      (1, { world := E.UIError fmtNoPolicy (E.Parse c args w).2,
            log := [Event.Parse args none] ++ [Event.UIError fmtNoPolicy] }) := by
  have hn1 := (noPolicy_iff _).2 hpol
  simp only [parsed] at hn1
  simp only [Run, hparse, hn1, uiError]
  simp

/-- The client cannot be built: `Run` writes the one message and returns 1. -/
theorem Run_of_client_failure (E : Env W κ ρ) (c : cmd) (args : List String) (w : W)
    (hparse : (E.Parse c args w).1.2 = none) (hpol : ¬ noPolicy (parsed E c args w))
    {e : String} (hclient : (E.APIClient (E.Parse c args w).2).1.2 = some e) :
    Run E c args w =
      (1, { world := E.UIError (fmtConnect e) (clientWorld E c args w),
            log := [Event.Parse args none, Event.APIClient (some e)] ++
              [Event.UIError (fmtConnect e)] }) := by
  have hn1 := mt (noPolicy_iff _).1 hpol
  simp only [parsed] at hn1
  simp only [Run, hparse, hn1, hclient, uiError]
  simp [clientWorld]

/-- The resolver returns an error for a policy ID after returning without error
for the ones before it: `Run` writes the one message in the world that call left
and returns 1; nothing else is called. -/
theorem Run_of_resolve_failure (E : Env W κ ρ) (c : cmd) (args : List String) (w : W)
    (hparse : (E.Parse c args w).1.2 = none) (hpol : ¬ noPolicy (parsed E c args w))
    (hclient : (E.APIClient (E.Parse c args w).2).1.2 = none)
    {calls : List (String × String)} {q policyID e : String} {w3 wb : W}
    (hpre : (calls.map Prod.fst ++ [q]) <+: (parsed E c args w).policyIDs)
    (hres : Resolved E (builtClient E c args w) (clientWorld E c args w) calls w3)
    (hq : E.GetPolicyIDFromPartial (builtClient E c args w) q w3 = ((policyID, some e), wb)) :
    Run E c args w =
      (1, { world := E.UIError (fmtResolve policyID e) wb,
            log := [Event.Parse args none, Event.APIClient none] ++ calls.map okCall ++
              [Event.GetPolicyIDFromPartial q policyID (some e)] ++
              [Event.UIError (fmtResolve policyID e)] }) := by
  obtain ⟨rest, hrest⟩ := hpre
  have hl := policyIDLoop_of_resolved E (builtClient E c args w) hres (q :: rest)
    (builtToken E (parsed E c args w) [])
    { world := clientWorld E c args w,
      log := [Event.Parse args none, Event.APIClient none] } rfl
  have hids : calls.map Prod.fst ++ q :: rest = (parsed E c args w).policyIDs := by
    rw [← hrest]
    simp
  rw [hids] at hl
  simp only [policyIDLoop, hq, uiError] at hl
  rw [Run_eq_of_loop E c args w hparse hpol hclient hl]

/-- The resolver returns without error for every policy ID: `Run` calls
`TokenCreate` once, on the built token, in the world the last resolver call
left; on an error it writes the one message and returns 1, otherwise it prints
the returned token and returns 0. -/
theorem Run_of_resolved (E : Env W κ ρ) (c : cmd) (args : List String) (w : W)
    (hparse : (E.Parse c args w).1.2 = none) (hpol : ¬ noPolicy (parsed E c args w))
    (hclient : (E.APIClient (E.Parse c args w).2).1.2 = none)
    {calls : List (String × String)} {w3 : W}
    (hids : calls.map Prod.fst = (parsed E c args w).policyIDs)
    (hres : Resolved E (builtClient E c args w) (clientWorld E c args w) calls w3) :
    Run E c args w =
      match (E.TokenCreate (builtClient E c args w)
          (builtToken E (parsed E c args w) calls) w3).1.2 with
      | some e =>
        (1, { world := E.UIError (fmtCreate e)
                (E.TokenCreate (builtClient E c args w)
                  (builtToken E (parsed E c args w) calls) w3).2,
              log := [Event.Parse args none, Event.APIClient none] ++ calls.map okCall ++
                [Event.TokenCreate (builtToken E (parsed E c args w) calls)
                  (E.TokenCreate (builtClient E c args w)
                    (builtToken E (parsed E c args w) calls) w3).1.1 (some e)] ++
                [Event.UIError (fmtCreate e)] })
      | none =>
        (0, { world := E.PrintToken
                (E.TokenCreate (builtClient E c args w)
                  (builtToken E (parsed E c args w) calls) w3).1.1
                (parsed E c args w).showMeta
                (E.TokenCreate (builtClient E c args w)
                  (builtToken E (parsed E c args w) calls) w3).2,
              log := [Event.Parse args none, Event.APIClient none] ++ calls.map okCall ++
                [Event.TokenCreate (builtToken E (parsed E c args w) calls)
                  (E.TokenCreate (builtClient E c args w)
                    (builtToken E (parsed E c args w) calls) w3).1.1 none,
                 Event.PrintToken
                  (E.TokenCreate (builtClient E c args w)
                    (builtToken E (parsed E c args w) calls) w3).1.1
                  (parsed E c args w).showMeta] }) := by
  have hl := policyIDLoop_of_resolved E (builtClient E c args w) hres []
    (builtToken E (parsed E c args w) [])
    { world := clientWorld E c args w,
      log := [Event.Parse args none, Event.APIClient none] } rfl
  rw [List.append_nil, hids] at hl
  simp only [policyIDLoop] at hl
  have hb : ({ builtToken E (parsed E c args w) [] with
      Policies := (builtToken E (parsed E c args w) []).Policies ++
        calls.map fun call => idLink call.2 } : ACLToken ρ) =
      builtToken E (parsed E c args w) calls := by
    simp [builtToken]
  rw [hb] at hl
  rw [Run_eq_of_loop E c args w hparse hpol hclient hl]
  cases ht : (E.TokenCreate (builtClient E c args w)
      (builtToken E (parsed E c args w) calls) w3).1.2 <;> simp [ht]

/-- Every run ends in one of four ways, each with its status and its complete
final state: a flag-parse failure; a failure reported before `TokenCreate` can
be called; a failure of `TokenCreate`; or success. -/
theorem Run_state (E : Env W κ ρ) (c : cmd) (args : List String) (w : W) :
    (∃ e, (E.Parse c args w).1.2 = some e ∧
      Run E c args w =
        (1, { world := (E.Parse c args w).2, log := [Event.Parse args (some e)] })) ∨
    (∃ msg wb lb, StoppedBeforeCreate E c args w msg wb lb ∧
      Run E c args w = (1, { world := E.UIError msg wb, log := lb ++ [Event.UIError msg] })) ∨
    (∃ msg wb lb, CreateFailed E c args w msg wb lb ∧
      Run E c args w = (1, { world := E.UIError msg wb, log := lb ++ [Event.UIError msg] })) ∨
    ((E.Parse c args w).1.2 = none ∧ ¬ noPolicy (parsed E c args w) ∧
      (E.APIClient (E.Parse c args w).2).1.2 = none ∧
      ∃ (calls : List (String × String)) (w3 : W) (token : Option (ACLToken ρ)) (w4 : W),
        calls.map Prod.fst = (parsed E c args w).policyIDs ∧
        Resolved E (builtClient E c args w) (clientWorld E c args w) calls w3 ∧
        E.TokenCreate (builtClient E c args w) (builtToken E (parsed E c args w) calls) w3 =
          ((token, none), w4) ∧
        Run E c args w =
          (0, { world := E.PrintToken token (parsed E c args w).showMeta w4,
                log := [Event.Parse args none, Event.APIClient none] ++ calls.map okCall ++
                  [Event.TokenCreate (builtToken E (parsed E c args w) calls) token none,
                   Event.PrintToken token (parsed E c args w).showMeta] })) := by
  cases hp : (E.Parse c args w).1.2 with
  | some e => exact Or.inl ⟨e, rfl, Run_of_parse_failure E c args w hp⟩
  | none =>
    refine Or.inr ?_
    by_cases hn : noPolicy (parsed E c args w)
    · exact Or.inl ⟨fmtNoPolicy, (E.Parse c args w).2, [Event.Parse args none],
        ⟨hp, Or.inl ⟨hn, rfl, rfl, rfl⟩⟩, Run_of_noPolicy E c args w hp hn⟩
    · cases ha : (E.APIClient (E.Parse c args w).2).1.2 with
      | some e =>
        exact Or.inl ⟨fmtConnect e, clientWorld E c args w,
          [Event.Parse args none, Event.APIClient (some e)],
          ⟨hp, Or.inr (Or.inl ⟨hn, e, ha, rfl, rfl, rfl⟩)⟩,
          Run_of_client_failure E c args w hp hn ha⟩
      | none =>
        rcases policyIDLoop_state E (builtClient E c args w) (parsed E c args w).policyIDs
          (builtToken E (parsed E c args w) [])
          { world := clientWorld E c args w,
            log := [Event.Parse args none, Event.APIClient none] } with
          ⟨calls, w3, h1, h2, _⟩ | ⟨calls, q, policyID, e, w3, wb, h1, h2, hq, _⟩
        · refine Or.inr ?_
          have hrun := Run_of_resolved E c args w hp hn ha h1 h2
          cases ht : (E.TokenCreate (builtClient E c args w)
              (builtToken E (parsed E c args w) calls) w3).1.2 with
          | some e =>
            rw [ht] at hrun
            exact Or.inl ⟨fmtCreate e, _, _,
              ⟨hp, hn, ha, calls, w3, _, e, h1, h2, Prod.ext (Prod.ext rfl ht) rfl, rfl, rfl⟩,
              hrun⟩
          | none =>
            rw [ht] at hrun
            exact Or.inr ⟨rfl, hn, rfl, calls, w3, _, _, h1, h2,
              Prod.ext (Prod.ext rfl ht) rfl, hrun⟩
        · exact Or.inl ⟨fmtResolve policyID e, wb, _,
            ⟨hp, Or.inr (Or.inr ⟨hn, ha, calls, q, policyID, e, w3, h1, h2, hq, rfl, rfl⟩)⟩,
            Run_of_resolve_failure E c args w hp hn ha h1 h2 hq⟩

/-- A run that stops before `TokenCreate` has logged no `TokenCreate`, no
`PrintToken` and no message before it reports. -/
theorem stoppedBeforeCreate_log {E : Env W κ ρ} {c : cmd} {args : List String} {w : W}
    {msg : String} {wb : W} {lb : List (Event ρ)}
    (h : StoppedBeforeCreate E c args w msg wb lb) :
    tokenCreateCalls lb = [] ∧ printTokenCalls lb = [] ∧ uiErrors lb = [] := by
  rcases h with ⟨_, ⟨_, _, _, rfl⟩ | ⟨_, e, _, _, _, rfl⟩ |
    ⟨_, _, calls, q, policyID, e, w3, _, _, _, _, rfl⟩⟩ <;> simp

/-- A run in which `TokenCreate` fails has logged one `TokenCreate`, no
`PrintToken` and no message before it reports. -/
theorem createFailed_log {E : Env W κ ρ} {c : cmd} {args : List String} {w : W}
    {msg : String} {wb : W} {lb : List (Event ρ)}
    (h : CreateFailed E c args w msg wb lb) :
    (tokenCreateCalls lb).length = 1 ∧ printTokenCalls lb = [] ∧ uiErrors lb = [] := by
  rcases h with ⟨_, _, _, calls, w3, token, e, _, _, _, _, rfl⟩
  simp

/-! ## Claims -/

/-- C1. When the arguments parse and neither `-policy-name` nor `-policy-id` was
supplied, `Run` returns 1 after exactly one `UI.Error` call, with the message
"Cannot create a token without specifying -policy-name or -policy-id at least
once", and nothing else happens: no API client is built, the resolver is not
called and `TokenCreate` is not called. -/
theorem Run_requires_policy (E : Env W κ ρ) (c : cmd) (args : List String) (w : W)
    (hparse : (E.Parse c args w).1.2 = none)
    (hnames : (parsed E c args w).policyNames = [])
    (hids : (parsed E c args w).policyIDs = []) :
    (Run E c args w).1 = 1 ∧
    (Run E c args w).2.log =
      [Event.Parse args none,
       Event.UIError
         "Cannot create a token without specifying -policy-name or -policy-id at least once"] ∧
    (Run E c args w).2.world =
      E.UIError "Cannot create a token without specifying -policy-name or -policy-id at least once"
        (E.Parse c args w).2 ∧
    apiClientCalls (Run E c args w).2.log = [] ∧
    resolverCalls (Run E c args w).2.log = [] ∧
    tokenCreateCalls (Run E c args w).2.log = [] ∧
    printTokenCalls (Run E c args w).2.log = [] := by
  have hn : noPolicy (parsed E c args w) := ⟨hnames, hids⟩
  rcases Run_shape E c args w with ⟨e, he, _⟩ | ⟨_, _, h⟩ | ⟨_, h, _⟩ | ⟨_, h, _⟩ | ⟨_, h, _⟩ |
    ⟨_, h, _⟩
  · rw [hparse] at he
    cases he
  · rw [h]
    simp [fmtNoPolicy]
  all_goals exact absurd hn h

/-- C1, worked example: `consul acl token create -description x -meta`. -/
theorem Run_requires_policy_witness :
    (Run (sampleEnv (.ok []) none none) New ["-description", "x", "-meta"] ()).1 = 1 ∧
    (Run (sampleEnv (.ok []) none none) New ["-description", "x", "-meta"] ()).2.log =
      [Event.Parse ["-description", "x", "-meta"] none,
       Event.UIError
         "Cannot create a token without specifying -policy-name or -policy-id at least once"] ∧
    (Run (sampleEnv (.ok []) none none) New ["-description", "x", "-meta"] ()).2.world = () ∧
    apiClientCalls (Run (sampleEnv (.ok []) none none) New ["-description", "x", "-meta"] ()).2.log
      = [] ∧
    resolverCalls (Run (sampleEnv (.ok []) none none) New ["-description", "x", "-meta"] ()).2.log
      = [] ∧
    tokenCreateCalls
      (Run (sampleEnv (.ok []) none none) New ["-description", "x", "-meta"] ()).2.log = [] ∧
    printTokenCalls
      (Run (sampleEnv (.ok []) none none) New ["-description", "x", "-meta"] ()).2.log = [] :=
  Run_requires_policy (sampleEnv (.ok []) none none) New ["-description", "x", "-meta"] ()
    (by decide) (by decide) (by decide)

/-- C2. `Run` returns 0 exactly when flag parsing succeeds, a policy name or ID
was supplied, the API client is constructed, every supplied policy ID resolves
without error and `TokenCreate` succeeds; in every other case it returns 1. -/
theorem Run_zero_iff_succeeds (E : Env W κ ρ) (c : cmd) (args : List String) (w : W) :
    ((Run E c args w).1 = 0 ↔ RunSucceeds E c args w) ∧
    (¬ RunSucceeds E c args w → (Run E c args w).1 = 1) ∧
    ((Run E c args w).1 = 0 ∨ (Run E c args w).1 = 1) := by
  have h01 : (Run E c args w).1 = 0 ∨ (Run E c args w).1 = 1 := by
    rcases Run_shape E c args w with ⟨e, _, h⟩ | ⟨_, _, h⟩ | ⟨_, _, _, _, h, _⟩ |
      ⟨_, _, _, _, _, _, _, _, _, _, h, _⟩ | ⟨_, _, _, _, _, _, _, _, _, h, _⟩ |
      ⟨_, _, _, _, _, _, _, _, h, _⟩
    · rw [h]; exact Or.inr rfl
    · rw [h]; exact Or.inr rfl
    · exact Or.inr h
    · exact Or.inr h
    · exact Or.inr h
    · exact Or.inl h
  have hiff : (Run E c args w).1 = 0 ↔ RunSucceeds E c args w := by
    constructor
    · intro h0
      cases hp : (E.Parse c args w).1.2 with
      | some e => simp [Run, hp] at h0
      | none =>
        by_cases hn : (E.Parse c args w).1.1.policyNames.length = 0 ∧
            (E.Parse c args w).1.1.policyIDs.length = 0
        · simp only [Run, hp, hn] at h0
          simp at h0
        · cases ha : (E.APIClient (E.Parse c args w).2).1.2 with
          | some e =>
            simp only [Run, hp, hn, ha] at h0
            simp at h0
          | none =>
            rcases hl : policyIDLoop E (E.APIClient (E.Parse c args w).2).1.1
              (E.Parse c args w).1.1.policyIDs
              (policyNameLoop (E.Parse c args w).1.1.policyNames
                { Description := (E.Parse c args w).1.1.description, Policies := [],
                  Local := (E.Parse c args w).1.1.local_, Rest := E.zeroRest })
              { world := (E.APIClient (E.Parse c args w).2).2,
                log := [Event.Parse args none] ++ [Event.APIClient none] } with ⟨o, s3⟩
            cases o with
            | none =>
              simp only [Run, hp, hn, ha, hl] at h0
              simp at h0
            | some t =>
              cases ht : (E.TokenCreate (E.APIClient (E.Parse c args w).2).1.1 t s3.world).1.2 with
              | some e =>
                simp only [Run, hp, hn, ha, hl, ht] at h0
                simp at h0
              | none =>
                obtain ⟨resolved, hr, htok⟩ := resolvesAll_of_policyIDLoop E _ _ _ t _
                  (congrArg Prod.fst hl)
                rw [hl] at hr
                rw [policyNameLoop_eq] at htok
                simp only [List.nil_append] at htok
                subst htok
                refine ⟨(E.Parse c args w).1.1, (E.Parse c args w).2,
                  (E.APIClient (E.Parse c args w).2).1.1, (E.APIClient (E.Parse c args w).2).2,
                  resolved, s3.world, _, _, Prod.ext (Prod.ext rfl hp) rfl, ?_,
                  Prod.ext (Prod.ext rfl ha) rfl, hr, Prod.ext (Prod.ext rfl ht) rfl⟩
                by_contra hcon
                push_neg at hcon
                exact hn (by simp [hcon.1, hcon.2])
    · rintro ⟨c1, w1, client, w2, resolved, w3, token, w4, hp, hn, ha, hr, ht⟩
      have hn1 : ¬ (c1.policyNames.length = 0 ∧ c1.policyIDs.length = 0) := by
        simp only [List.length_eq_zero]
        rintro ⟨h1, h2⟩
        rcases hn with h | h
        · exact h h1
        · exact h h2
      have hl := policyIDLoop_of_resolvesAll E client hr
        (policyNameLoop c1.policyNames
          { Description := c1.description, Policies := [], Local := c1.local_,
            Rest := E.zeroRest })
        { world := w2, log := [Event.Parse args none] ++ [Event.APIClient none] } rfl
      rw [policyNameLoop_eq] at hl
      simp only [List.nil_append] at hl
      rcases hl2 : policyIDLoop E client c1.policyIDs
        (policyNameLoop c1.policyNames
          { Description := c1.description, Policies := [], Local := c1.local_,
            Rest := E.zeroRest })
        { world := w2, log := [Event.Parse args none] ++ [Event.APIClient none] } with ⟨o, s3⟩
      rw [policyNameLoop_eq] at hl2
      simp only [List.nil_append] at hl2
      rw [hl2] at hl
      obtain ⟨h1, h2⟩ := hl
      simp only at h1 h2
      subst h1 h2
      simp only [Run, hp, hn1, ha]
      rw [policyNameLoop_eq]
      simp only [List.nil_append, hl2, ht]
      simp
  refine ⟨hiff, ?_, h01⟩
  intro hns
  rcases h01 with h | h
  · exact absurd (hiff.1 h) hns
  · exact h

/-- C3. With the specified resolver over the identifier universe `U`: if exactly
one element `x` of `U` starts with the partial ID `p`, then `Resolve` returns `x`,
every resolver call `Run` makes for `p` returns the entire ID `x`, every token
`Run` submits when `p` was given with `-policy-id` links `x`, and a run with the
single policy ID `p` that gets as far as the client submits exactly the token
with the link `ID: x` after the name links. -/
theorem Run_links_unique_match (E : Env W κ ρ)
    (PolicyList : κ → W → Except String (List String) × W) (U : List String) (p x : String)
    (c : cmd) (args : List String) (w : W)
    (hE : E.GetPolicyIDFromPartial = acl.GetPolicyIDFromPartial PolicyList)
    (hU : ∀ client w1, (PolicyList client w1).1 = .ok U)
    (hx : x ∈ U) (hp : acl.hasPrefix x p = true)
    (huniq : ∀ y ∈ U, acl.hasPrefix y p = true → y = x) :
    acl.Resolve p (.ok U) = .ok x ∧
    (∀ client w1, (E.GetPolicyIDFromPartial client p w1).1 = (x, none)) ∧
    (p ∈ (parsed E c args w).policyIDs →
      ∀ tc ∈ tokenCreateCalls (Run E c args w).2.log, idLink x ∈ tc.1.Policies) ∧
    ((E.Parse c args w).1.2 = none → (parsed E c args w).policyIDs = [p] →
      (E.APIClient (E.Parse c args w).2).1.2 = none →
      ∃ token err, tokenCreateCalls (Run E c args w).2.log =
        [({ Description := (parsed E c args w).description
            Policies := (parsed E c args w).policyNames.map nameLink ++ [idLink x]
            Local := (parsed E c args w).local_
            Rest := E.zeroRest }, token, err)]) := by
  have hres := Resolve_unique hx hp huniq
  have hret : ∀ (client : κ) (policyID : String) (err : Option String),
      resolverReturned E client p policyID err → policyID = x ∧ err = none := by
    intro client policyID err h
    rcases resolverReturned_modelled hE hU h with ⟨h1, h2⟩ | ⟨e, h1, _, _⟩
    · rw [hres] at h1
      exact ⟨(Except.ok.inj h1).symm, h2⟩
    · rw [hres] at h1
      cases h1
  refine ⟨hres, ?_, ?_, ?_⟩
  · intro client w1
    have := hret client (E.GetPolicyIDFromPartial client p w1).1.1
      (E.GetPolicyIDFromPartial client p w1).1.2 ⟨w1, rfl⟩
    exact Prod.ext this.1 this.2
  · intro hmem tc htc
    obtain ⟨calls, h1, h2, _, h3⟩ := tokenCreateCalls_built E c args w tc htc
    rw [← h1] at hmem
    obtain ⟨call, hcall, hcp⟩ := List.mem_map.1 hmem
    have hr := h2 call hcall
    rw [hcp] at hr
    rw [h3]
    simp only [builtToken, List.mem_append, List.mem_map]
    exact Or.inr ⟨call, hcall, by rw [(hret _ _ _ hr).1]⟩
  · intro hparse hids hclient
    have hpol : ¬ noPolicy (parsed E c args w) := by
      intro h
      rw [h.2] at hids
      cases hids
    rcases Run_after_client E c args w hparse hpol hclient with
      ⟨calls, q, policyID, e, h1, hq⟩ | ⟨calls, token, err, h1, h2, h3⟩
    · exfalso
      rw [hids] at h1
      have hlen := h1.length_le
      simp at hlen
      subst hlen
      simp at h1
      subst h1
      have := (hret _ _ _ hq).2
      cases this
    · refine ⟨token, err, ?_⟩
      rw [hids] at h1
      match calls, h1, h2 with
      | [call], h1, h2 =>
        simp at h1
        have hr := h2 call (by simp)
        rw [h1] at hr
        rw [h3]
        simp [builtToken, (hret _ _ _ hr).1]

/-- C3, worked example (the scenario of the specification): the universe holds
the single ID `b52fc3de-5111-4c1e-8c5a-000000000001` and the command is run with
`-policy-id b52fc3de-5 -policy-name acl-replication`. -/
theorem Run_links_unique_match_witness :
    acl.Resolve "b52fc3de-5" (.ok ["b52fc3de-5111-4c1e-8c5a-000000000001"]) =
      .ok "b52fc3de-5111-4c1e-8c5a-000000000001" ∧
    ∃ token err, tokenCreateCalls
      (Run (sampleEnv (.ok ["b52fc3de-5111-4c1e-8c5a-000000000001"]) none none) New
        ["-policy-id", "b52fc3de-5", "-policy-name", "acl-replication"] ()).2.log =
      [({ Description := ""
          Policies := [nameLink "acl-replication",
                       idLink "b52fc3de-5111-4c1e-8c5a-000000000001"]
          Local := false
          Rest := "" }, token, err)] :=
  have h := Run_links_unique_match
    (sampleEnv (.ok ["b52fc3de-5111-4c1e-8c5a-000000000001"]) none none)
    (fun _ w => (.ok ["b52fc3de-5111-4c1e-8c5a-000000000001"], w))
    ["b52fc3de-5111-4c1e-8c5a-000000000001"] "b52fc3de-5"
    "b52fc3de-5111-4c1e-8c5a-000000000001" New
    ["-policy-id", "b52fc3de-5", "-policy-name", "acl-replication"] ()
    rfl (fun _ _ => rfl) (by decide) (by decide) (by decide)
  ⟨h.1, h.2.2.2 (by decide) (by decide) (by decide)⟩

/-- C4. With the specified resolver over the universe `U`: if two distinct
elements of `U` start with the partial ID `p` and `p` itself is not in `U`, then
`Resolve` fails with `AmbiguousPrefixError` carrying at least two candidates
(both elements among them), and every resolver call for `p` returns that error
and no ID. A run given `p` with `-policy-id` returns 1 without creating a
token: its final state is that of a flag-parse failure or of a run that stops
before `TokenCreate` can be called, so `TokenCreate` is neither logged nor
applied to the world. And when `p` is reached, the resolver having returned
without error for the IDs before it, the complete final state is the world the
listing for `p` left with the one `UI.Error` message written to it. -/
theorem Run_rejects_ambiguous (E : Env W κ ρ)
    (PolicyList : κ → W → Except String (List String) × W) (U : List String) (p x y : String)
    (c : cmd) (args : List String) (w : W)
    (hE : E.GetPolicyIDFromPartial = acl.GetPolicyIDFromPartial PolicyList)
    (hU : ∀ client w1, (PolicyList client w1).1 = .ok U)
    (hx : x ∈ U) (hy : y ∈ U) (hxy : x ≠ y)
    (hpx : acl.hasPrefix x p = true) (hpy : acl.hasPrefix y p = true) (hmem : p ∉ U) :
    (acl.Resolve p (.ok U) = .error (.AmbiguousPrefixError p (acl.candidates p U)) ∧
      2 ≤ (acl.candidates p U).length ∧ x ∈ acl.candidates p U ∧ y ∈ acl.candidates p U) ∧
    (∀ client w1, E.GetPolicyIDFromPartial client p w1 =
      (("", some (acl.ResolveError.AmbiguousPrefixError p (acl.candidates p U)).Error),
        (PolicyList client w1).2)) ∧
    (p ∈ (parsed E c args w).policyIDs →
      (Run E c args w).1 = 1 ∧ tokenCreateCalls (Run E c args w).2.log = [] ∧
      ((∃ e, (E.Parse c args w).1.2 = some e ∧
          Run E c args w =
            (1, { world := (E.Parse c args w).2, log := [Event.Parse args (some e)] })) ∨
       (∃ msg wb lb, StoppedBeforeCreate E c args w msg wb lb ∧
          Run E c args w =
            (1, { world := E.UIError msg wb, log := lb ++ [Event.UIError msg] })))) ∧
    (∀ (calls : List (String × String)) (w3 : W),
      (E.Parse c args w).1.2 = none → (E.APIClient (E.Parse c args w).2).1.2 = none →
      (calls.map Prod.fst ++ [p]) <+: (parsed E c args w).policyIDs →
      Resolved E (builtClient E c args w) (clientWorld E c args w) calls w3 →
      Run E c args w =
        (1, { world := E.UIError
                (fmtResolve ""
                  (acl.ResolveError.AmbiguousPrefixError p (acl.candidates p U)).Error)
                (PolicyList (builtClient E c args w) w3).2,
              log := [Event.Parse args none, Event.APIClient none] ++ calls.map okCall ++
                [Event.GetPolicyIDFromPartial p ""
                  (some (acl.ResolveError.AmbiguousPrefixError p (acl.candidates p U)).Error)] ++
                [Event.UIError
                  (fmtResolve ""
                    (acl.ResolveError.AmbiguousPrefixError p (acl.candidates p U)).Error)] })) := by
  have hres := Resolve_ambiguous hx hy hxy hpx hpy hmem
  have hcx : x ∈ acl.candidates p U := mem_candidates.2 ⟨hx, hpx⟩
  have hcy : y ∈ acl.candidates p U := mem_candidates.2 ⟨hy, hpy⟩
  have hcall : ∀ client w1, E.GetPolicyIDFromPartial client p w1 =
      (("", some (acl.ResolveError.AmbiguousPrefixError p (acl.candidates p U)).Error),
        (PolicyList client w1).2) := by
    intro client w1
    rw [hE]
    simp only [acl.GetPolicyIDFromPartial, hU, hres]
  have hret : ∀ (client : κ) (policyID : String),
      ¬ resolverReturned E client p policyID none := by
    rintro client policyID ⟨w1, h1⟩
    rw [hcall] at h1
    simp at h1
  have hno : ∀ (calls : List (String × String)) (w3 : W),
      calls.map Prod.fst = (parsed E c args w).policyIDs →
      p ∈ (parsed E c args w).policyIDs →
      Resolved E (builtClient E c args w) (clientWorld E c args w) calls w3 → False := by
    intro calls w3 h1 hin h2
    rw [← h1] at hin
    obtain ⟨call, hcin, hcp⟩ := List.mem_map.1 hin
    have hr := resolverReturned_of_resolved h2 call hcin
    rw [hcp] at hr
    exact hret _ _ hr
  refine ⟨⟨hres, two_le_length_of_mem hcx hcy hxy, hcx, hcy⟩, hcall, ?_, ?_⟩
  · intro hin
    rcases Run_state E c args w with ⟨e, he, h⟩ | ⟨msg, wb, lb, hs, h⟩ |
      ⟨msg, wb, lb, ⟨_, _, _, calls, w3, _, _, h1, h2, _⟩, _⟩ |
      ⟨_, _, _, calls, w3, _, _, h1, h2, _⟩
    · exact ⟨by rw [h], by simp [h], Or.inl ⟨e, he, h⟩⟩
    · exact ⟨by rw [h], by simp [h, (stoppedBeforeCreate_log hs).1], Or.inr ⟨msg, wb, lb, hs, h⟩⟩
    · exact (hno calls w3 h1 hin h2).elim
    · exact (hno calls w3 h1 hin h2).elim
  · intro calls w3 hp ha hpre hresd
    have hn : ¬ noPolicy (parsed E c args w) := by
      intro hn
      rw [hn.2] at hpre
      have := hpre.length_le
      simp at this
    exact Run_of_resolve_failure E c args w hp hn ha hpre hresd (hcall _ _)

/-- C4, worked example (the scenario of the specification), with the world a
transcript: two IDs share the partial ID `b52fc3de-5`. The policies are listed
once, the message is written, and no token is submitted. -/
theorem Run_rejects_ambiguous_witness :
    Run (transcriptEnv (.ok ["b52fc3de-5111-4c1e-8c5a-000000000001",
        "b52fc3de-5222-4c1e-8c5a-000000000002"]) none none) New
      ["-policy-id", "b52fc3de-5"] [] =
    (1, { world := ["GET /v1/acl/policies",
            "UI.Error Error resolving policy ID : ambiguous, b52fc3de-5 matches 2 entries, please supply more characters"],
          log := [Event.Parse ["-policy-id", "b52fc3de-5"] none, Event.APIClient none,
            Event.GetPolicyIDFromPartial "b52fc3de-5" ""
              (some "ambiguous, b52fc3de-5 matches 2 entries, please supply more characters"),
            Event.UIError
              "Error resolving policy ID : ambiguous, b52fc3de-5 matches 2 entries, please supply more characters"] }) := by
  have h := (Run_rejects_ambiguous
    (transcriptEnv (.ok ["b52fc3de-5111-4c1e-8c5a-000000000001",
      "b52fc3de-5222-4c1e-8c5a-000000000002"]) none none)
    (fun _ w => (.ok ["b52fc3de-5111-4c1e-8c5a-000000000001",
      "b52fc3de-5222-4c1e-8c5a-000000000002"], w ++ ["GET /v1/acl/policies"]))
    ["b52fc3de-5111-4c1e-8c5a-000000000001", "b52fc3de-5222-4c1e-8c5a-000000000002"]
    "b52fc3de-5" "b52fc3de-5111-4c1e-8c5a-000000000001" "b52fc3de-5222-4c1e-8c5a-000000000002"
    New ["-policy-id", "b52fc3de-5"] []
    rfl (fun _ _ => rfl) (by decide) (by decide) (by decide) (by decide) (by decide)
    (by decide)).2.2.2 [] [] (by decide) (by decide) (by decide) (Resolved.nil _)
  rw [h]
  decide

/-- C5. Exact-match precedence and membership for the specified resolver: if `p`
is itself an element of the universe `U`, resolution returns `p` whatever else
starts with `p`; and every successful resolution result is an element of the
universe that the listing returned for that query. -/
theorem Resolve_exact_match_and_membership (U : List String) (p : String) :
    (p ∈ U → acl.Resolve p (.ok U) = .ok p) ∧
    (∀ x, acl.Resolve p (.ok U) = .ok x → x ∈ U) ∧
    (∀ (PolicyList : κ → W → Except String (List String) × W) (client : κ) (w : W)
        (policyID : String),
      (PolicyList client w).1 = .ok U →
      (acl.GetPolicyIDFromPartial PolicyList client p w).1 = (policyID, none) →
      policyID ∈ U) := by
  refine ⟨?_, ?_, ?_⟩
  · intro h
    simp [acl.Resolve, h]
  · intro x h
    exact Resolve_mem h
  · intro PolicyList client w policyID hU h
    simp only [acl.GetPolicyIDFromPartial, hU] at h
    cases hr : acl.Resolve p (.ok U) with
    | ok identifier =>
      simp only [hr, Prod.mk.injEq] at h
      exact h.1 ▸ Resolve_mem hr
    | error e => simp [hr] at h

/-- C5, worked example: `ab` is an identifier and also starts `abc`; it resolves to itself. -/
theorem Resolve_exact_match_and_membership_witness :
    acl.Resolve "ab" (.ok ["abc", "ab", "abd"]) = .ok "ab" :=
  (Resolve_exact_match_and_membership (W := Unit) (κ := Unit) ["abc", "ab", "abd"] "ab").1
    (by decide)

/-- C6. A failed resolution writes nothing to the remote system. First, when the
resolver returns an error for a supplied policy ID after returning without
error for the ones before it, `Run` returns 1 and its complete final state is:
the world that failing call left, with the one `UI.Error` message written to it,
and the log of the calls made so far; so no later ID is resolved, none is
retried and `TokenCreate` is not called. Second, every run is a flag-parse
failure, or stops before `TokenCreate` can be called, or has the resolver return
without error for every supplied policy ID, one call each and in order, and then
calls `TokenCreate` once in the world the last of these calls left. Third,
the log never holds more than one `TokenCreate` call. -/
theorem Run_stops_at_failed_resolution (E : Env W κ ρ) (c : cmd) (args : List String) (w : W) :
    (∀ (calls : List (String × String)) (q policyID e : String) (w3 wb : W),
      (E.Parse c args w).1.2 = none → ¬ noPolicy (parsed E c args w) →
      (E.APIClient (E.Parse c args w).2).1.2 = none →
      (calls.map Prod.fst ++ [q]) <+: (parsed E c args w).policyIDs →
      Resolved E (builtClient E c args w) (clientWorld E c args w) calls w3 →
      E.GetPolicyIDFromPartial (builtClient E c args w) q w3 = ((policyID, some e), wb) →
      Run E c args w =
        (1, { world := E.UIError (fmtResolve policyID e) wb,
              log := [Event.Parse args none, Event.APIClient none] ++ calls.map okCall ++
                [Event.GetPolicyIDFromPartial q policyID (some e)] ++
                [Event.UIError (fmtResolve policyID e)] })) ∧
    ((∃ e, (E.Parse c args w).1.2 = some e ∧
        Run E c args w =
          (1, { world := (E.Parse c args w).2, log := [Event.Parse args (some e)] })) ∨
     (∃ msg wb lb, StoppedBeforeCreate E c args w msg wb lb ∧
        Run E c args w =
          (1, { world := E.UIError msg wb, log := lb ++ [Event.UIError msg] })) ∨
     ((E.Parse c args w).1.2 = none ∧ ¬ noPolicy (parsed E c args w) ∧
        (E.APIClient (E.Parse c args w).2).1.2 = none ∧
        ∃ (calls : List (String × String)) (w3 : W),
          calls.map Prod.fst = (parsed E c args w).policyIDs ∧
          Resolved E (builtClient E c args w) (clientWorld E c args w) calls w3 ∧
          Run E c args w =
            match (E.TokenCreate (builtClient E c args w)
                (builtToken E (parsed E c args w) calls) w3).1.2 with
            | some e =>
              (1, { world := E.UIError (fmtCreate e)
                      (E.TokenCreate (builtClient E c args w)
                        (builtToken E (parsed E c args w) calls) w3).2,
                    log := [Event.Parse args none, Event.APIClient none] ++
                      calls.map okCall ++
                      [Event.TokenCreate (builtToken E (parsed E c args w) calls)
                        (E.TokenCreate (builtClient E c args w)
                          (builtToken E (parsed E c args w) calls) w3).1.1 (some e)] ++
                      [Event.UIError (fmtCreate e)] })
            | none =>
              (0, { world := E.PrintToken
                      (E.TokenCreate (builtClient E c args w)
                        (builtToken E (parsed E c args w) calls) w3).1.1
                      (parsed E c args w).showMeta
                      (E.TokenCreate (builtClient E c args w)
                        (builtToken E (parsed E c args w) calls) w3).2,
                    log := [Event.Parse args none, Event.APIClient none] ++
                      calls.map okCall ++
                      [Event.TokenCreate (builtToken E (parsed E c args w) calls)
                        (E.TokenCreate (builtClient E c args w)
                          (builtToken E (parsed E c args w) calls) w3).1.1 none,
                       Event.PrintToken
                        (E.TokenCreate (builtClient E c args w)
                          (builtToken E (parsed E c args w) calls) w3).1.1
                        (parsed E c args w).showMeta] }))) ∧
    (tokenCreateCalls (Run E c args w).2.log).length ≤ 1 := by
  refine ⟨?_, ?_, ?_⟩
  · intro calls q policyID e w3 wb hp hn ha hpre hres hq
    exact Run_of_resolve_failure E c args w hp hn ha hpre hres hq
  · rcases Run_state E c args w with ⟨e, he, h⟩ | ⟨msg, wb, lb, hs, h⟩ |
      ⟨msg, wb, lb, ⟨hp, hn, ha, calls, w3, _, _, h1, h2, _⟩, _⟩ |
      ⟨hp, hn, ha, calls, w3, _, _, h1, h2, _⟩
    · exact Or.inl ⟨e, he, h⟩
    · exact Or.inr (Or.inl ⟨msg, wb, lb, hs, h⟩)
    · exact Or.inr (Or.inr ⟨hp, hn, ha, calls, w3, h1, h2,
        Run_of_resolved E c args w hp hn ha h1 h2⟩)
    · exact Or.inr (Or.inr ⟨hp, hn, ha, calls, w3, h1, h2,
        Run_of_resolved E c args w hp hn ha h1 h2⟩)
  · rcases Run_state E c args w with ⟨e, _, h⟩ | ⟨msg, wb, lb, hs, h⟩ |
      ⟨msg, wb, lb, hs, h⟩ | ⟨_, _, _, calls, w3, _, _, _, _, _, h⟩
    · simp [h]
    · simp [h, (stoppedBeforeCreate_log hs).1]
    · simp [h, (createFailed_log hs).1]
    · simp [h]

/-- C6, worked example, with the world a transcript: three policy IDs of which
the second does not resolve. The policies are listed twice, the message is
written, and no token is submitted. -/
theorem Run_stops_at_failed_resolution_witness :
    Run (transcriptEnv (.ok ["aaaa-1", "bbbb-2"]) none none) New
        ["-policy-id", "aaaa", "-policy-id", "zzzz", "-policy-id", "bbbb"] [] =
      (1, { world := ["GET /v1/acl/policies", "GET /v1/acl/policies",
                      "UI.Error Error resolving policy ID : no match for zzzz"],
            log := [Event.Parse
                      ["-policy-id", "aaaa", "-policy-id", "zzzz", "-policy-id", "bbbb"] none,
                    Event.APIClient none,
                    Event.GetPolicyIDFromPartial "aaaa" "aaaa-1" none,
                    Event.GetPolicyIDFromPartial "zzzz" "" (some "no match for zzzz"),
                    Event.UIError "Error resolving policy ID : no match for zzzz"] }) := by
  have h := (Run_stops_at_failed_resolution (transcriptEnv (.ok ["aaaa-1", "bbbb-2"]) none none)
    New ["-policy-id", "aaaa", "-policy-id", "zzzz", "-policy-id", "bbbb"] []).1
    [("aaaa", "aaaa-1")] "zzzz" "" "no match for zzzz"
    ["GET /v1/acl/policies"] ["GET /v1/acl/policies", "GET /v1/acl/policies"]
    (by decide) (by decide) (by decide) (by decide)
    (Resolved.cons (by decide) (Resolved.nil _)) (by decide)
  rw [h]
  decide

/-- C7, as stated, fails: on a flag-parse failure `Run` returns 1 and writes no
message to the command's UI (line 50 returns at once). -/
theorem Run_parse_failure_writes_no_message :
    (sampleEnv (.ok []) none none).Parse New ["-bogus"] () =
      ((New, some "flag provided but not defined: -bogus"), ()) ∧
    (Run (sampleEnv (.ok []) none none) New ["-bogus"] ()).1 = 1 ∧
    uiErrors (Run (sampleEnv (.ok []) none none) New ["-bogus"] ()).2.log = [] := by
  decide

/-- C7, amended. A run that returns a non-zero status returns 1, and either it
failed in flag parsing, and then `Run` wrote nothing to the UI (its final world
is the one the parse left), or it wrote exactly one error message, as its last
action: its final world is `UI.Error` of that message applied to the world the
failing step left, and no message was written before. The message is the one of
its failure kind: missing policy reference, client construction or policy-ID
resolution (a run that stops before `TokenCreate`), or token creation. The
messages of these four kinds are pairwise different. -/
theorem Run_failure_message (E : Env W κ ρ) (c : cmd) (args : List String) (w : W)
    (hfail : (Run E c args w).1 ≠ 0) :
    (Run E c args w).1 = 1 ∧
    ((∃ e, (E.Parse c args w).1.2 = some e ∧
        (Run E c args w).2 =
          { world := (E.Parse c args w).2, log := [Event.Parse args (some e)] }) ∨
     (∃ msg wb lb,
        (StoppedBeforeCreate E c args w msg wb lb ∨ CreateFailed E c args w msg wb lb) ∧
        (Run E c args w).2 = { world := E.UIError msg wb, log := lb ++ [Event.UIError msg] } ∧
        uiErrors lb = [] ∧ uiErrors (Run E c args w).2.log = [msg])) ∧
    (∀ e1 policyID e2 e3 : String,
      fmtNoPolicy ≠ fmtConnect e1 ∧ fmtNoPolicy ≠ fmtResolve policyID e2 ∧
      fmtNoPolicy ≠ fmtCreate e3 ∧ fmtConnect e1 ≠ fmtResolve policyID e2 ∧
      fmtConnect e1 ≠ fmtCreate e3 ∧ fmtResolve policyID e2 ≠ fmtCreate e3) := by
  refine ⟨?_, ?_, fmt_distinct⟩
  · rcases Run_state E c args w with ⟨e, _, h⟩ | ⟨_, _, _, _, h⟩ | ⟨_, _, _, _, h⟩ |
      ⟨_, _, _, _, _, _, _, _, _, _, h⟩
    · rw [h]
    · rw [h]
    · rw [h]
    · rw [h] at hfail
      exact absurd rfl hfail
  · rcases Run_state E c args w with ⟨e, he, h⟩ | ⟨msg, wb, lb, hs, h⟩ |
      ⟨msg, wb, lb, hs, h⟩ | ⟨_, _, _, _, _, _, _, _, _, _, h⟩
    · exact Or.inl ⟨e, he, by rw [h]⟩
    · exact Or.inr ⟨msg, wb, lb, Or.inl hs, by rw [h], (stoppedBeforeCreate_log hs).2.2,
        by simp [h, (stoppedBeforeCreate_log hs).2.2]⟩
    · exact Or.inr ⟨msg, wb, lb, Or.inr hs, by rw [h], (createFailed_log hs).2.2,
        by simp [h, (createFailed_log hs).2.2]⟩
    · rw [h] at hfail
      exact absurd rfl hfail

/-- C7 amended, worked example, with the world a transcript: the remote call
fails, and the one message is written after it. -/
theorem Run_failure_message_witness :
    (Run (transcriptEnv (.ok ["aaaa-1"]) none (some "Unexpected response code: 403")) New
      ["-policy-id", "aaaa"] []).1 = 1 ∧
    (Run (transcriptEnv (.ok ["aaaa-1"]) none (some "Unexpected response code: 403")) New
      ["-policy-id", "aaaa"] []).2.world =
      ["GET /v1/acl/policies", "PUT /v1/acl/token aaaa-1:",
       "UI.Error Failed to create new token: Unexpected response code: 403"] :=
  ⟨(Run_failure_message
    (transcriptEnv (.ok ["aaaa-1"]) none (some "Unexpected response code: 403")) New
    ["-policy-id", "aaaa"] [] (by decide)).1, by decide⟩

/-- C8, the code at a failing input: the command is run with `-policy-id zzzz`
and the resolver returns the empty string with its error. The message `Run`
writes names the resolver's string, not the `zzzz` the user supplied. -/
theorem Run_resolve_message_drops_partialID :
    uiErrors (Run (sampleEnvWith emptyResolver none none) New ["-policy-id", "zzzz"] ()).2.log =
      ["Error resolving policy ID : No such policy ID with prefix: zzzz"] ∧
    uiErrors (Run (sampleEnvWith emptyResolver none none) New ["-policy-id", "zzzz"] ()).2.log ≠
      ["Error resolving policy ID zzzz: No such policy ID with prefix: zzzz"] := by
  decide

/-- C9. The created record is printed exactly on success. When `Run` returns 0,
the resolver returned without error for every policy ID, `TokenCreate` returned
a token without error in the world the last resolver call left, and the final
world is `acl.PrintToken` applied once, as the last action, to the world
`TokenCreate` left, on the token `TokenCreate` returned and with the value of
`showMeta` (the variable bound to `-meta`) after parsing. Conversely, whenever
`TokenCreate` returns a token without error the run ends so. When `Run` returns
1, `acl.PrintToken` is neither logged nor applied: the final state is that of a
flag-parse failure, or `UI.Error` applied to the world the failing step left.
The default that `init` registers for `-meta` is false, so when parsing leaves
it untouched the switch passed is false. -/
theorem Run_prints_created_token (E : Env W κ ρ) (c : cmd) (args : List String) (w : W) :
    ((Run E c args w).1 = 0 →
      ∃ (calls : List (String × String)) (w3 : W) (token : Option (ACLToken ρ)) (w4 : W),
        calls.map Prod.fst = (parsed E c args w).policyIDs ∧
        Resolved E (builtClient E c args w) (clientWorld E c args w) calls w3 ∧
        E.TokenCreate (builtClient E c args w) (builtToken E (parsed E c args w) calls) w3 =
          ((token, none), w4) ∧
        Run E c args w =
          (0, { world := E.PrintToken token (parsed E c args w).showMeta w4,
                log := [Event.Parse args none, Event.APIClient none] ++ calls.map okCall ++
                  [Event.TokenCreate (builtToken E (parsed E c args w) calls) token none,
                   Event.PrintToken token (parsed E c args w).showMeta] })) ∧
    (∀ (calls : List (String × String)) (w3 : W) (token : Option (ACLToken ρ)) (w4 : W),
      (E.Parse c args w).1.2 = none → ¬ noPolicy (parsed E c args w) →
      (E.APIClient (E.Parse c args w).2).1.2 = none →
      calls.map Prod.fst = (parsed E c args w).policyIDs →
      Resolved E (builtClient E c args w) (clientWorld E c args w) calls w3 →
      E.TokenCreate (builtClient E c args w) (builtToken E (parsed E c args w) calls) w3 =
        ((token, none), w4) →
      Run E c args w =
        (0, { world := E.PrintToken token (parsed E c args w).showMeta w4,
              log := [Event.Parse args none, Event.APIClient none] ++ calls.map okCall ++
                [Event.TokenCreate (builtToken E (parsed E c args w) calls) token none,
                 Event.PrintToken token (parsed E c args w).showMeta] })) ∧
    ((Run E c args w).1 = 1 →
      printTokenCalls (Run E c args w).2.log = [] ∧
      ((∃ e, (E.Parse c args w).1.2 = some e ∧
          (Run E c args w).2 =
            { world := (E.Parse c args w).2, log := [Event.Parse args (some e)] }) ∨
       (∃ msg wb lb,
          (StoppedBeforeCreate E c args w msg wb lb ∨ CreateFailed E c args w msg wb lb) ∧
          (Run E c args w).2 =
            { world := E.UIError msg wb, log := lb ++ [Event.UIError msg] }))) ∧
    (∀ c0 : cmd, (init c0).showMeta = false) ∧
    (∀ c0 : cmd, c = init c0 → (parsed E c args w).showMeta = c.showMeta →
      (∀ pc ∈ printTokenCalls (Run E c args w).2.log, pc.2 = false) ∧
      ((Run E c args w).1 = 0 →
        ∃ token w4, (Run E c args w).2.world = E.PrintToken token false w4)) := by
  have hstate := Run_state E c args w
  refine ⟨?_, ?_, ?_, fun _ => rfl, ?_⟩
  · intro h0
    rcases hstate with ⟨e, _, h⟩ | ⟨_, _, _, _, h⟩ | ⟨_, _, _, _, h⟩ |
      ⟨_, _, _, calls, w3, token, w4, h1, h2, ht, h⟩
    · rw [h] at h0; cases h0
    · rw [h] at h0; cases h0
    · rw [h] at h0; cases h0
    · exact ⟨calls, w3, token, w4, h1, h2, ht, h⟩
  · intro calls w3 token w4 hp hn ha h1 h2 ht
    have h := Run_of_resolved E c args w hp hn ha h1 h2
    rw [ht] at h
    exact h
  · intro h1
    rcases hstate with ⟨e, he, h⟩ | ⟨msg, wb, lb, hs, h⟩ | ⟨msg, wb, lb, hs, h⟩ |
      ⟨_, _, _, _, _, _, _, _, _, _, h⟩
    · exact ⟨by simp [h], Or.inl ⟨e, he, by rw [h]⟩⟩
    · exact ⟨by simp [h, (stoppedBeforeCreate_log hs).2.1], Or.inr ⟨msg, wb, lb, Or.inl hs, by rw [h]⟩⟩
    · exact ⟨by simp [h, (createFailed_log hs).2.1], Or.inr ⟨msg, wb, lb, Or.inr hs, by rw [h]⟩⟩
    · rw [h] at h1; cases h1
  · intro c0 hc hkeep
    have hfalse : (parsed E c args w).showMeta = false := by
      rw [hkeep, hc]
      rfl
    rcases hstate with ⟨e, _, h⟩ | ⟨msg, wb, lb, hs, h⟩ | ⟨msg, wb, lb, hs, h⟩ |
      ⟨_, _, _, calls, w3, token, w4, _, _, _, h⟩
    · exact ⟨by simp [h], fun h0 => by rw [h] at h0; cases h0⟩
    · exact ⟨by simp [h, (stoppedBeforeCreate_log hs).2.1], fun h0 => by rw [h] at h0; cases h0⟩
    · exact ⟨by simp [h, (createFailed_log hs).2.1], fun h0 => by rw [h] at h0; cases h0⟩
    · refine ⟨?_, fun _ => ⟨token, w4, by rw [h, hfalse]⟩⟩
      intro pc hpc
      simp [h] at hpc
      rw [hpc, hfalse]

/-- C9, worked example, with the world a transcript: with `-meta`, the token
printed is the one the server returned (its remaining fields filled in), not the
one submitted, and it is printed once, after the submission. -/
theorem Run_prints_created_token_witness :
    Run (transcriptEnv (.ok ["aaaa-1"]) none none) New ["-policy-id", "aaaa", "-meta"] [] =
      (0, { world := ["GET /v1/acl/policies", "PUT /v1/acl/token aaaa-1:",
                      "PrintToken with metadata"],
            log := [Event.Parse ["-policy-id", "aaaa", "-meta"] none, Event.APIClient none,
              Event.GetPolicyIDFromPartial "aaaa" "aaaa-1" none,
              Event.TokenCreate
                { Description := "", Policies := [idLink "aaaa-1"], Local := false, Rest := "" }
                (some { Description := "", Policies := [idLink "aaaa-1"], Local := false,
                        Rest := "accessor-1" }) none,
              Event.PrintToken
                (some { Description := "", Policies := [idLink "aaaa-1"], Local := false,
                        Rest := "accessor-1" }) true] }) := by
  have h := (Run_prints_created_token (transcriptEnv (.ok ["aaaa-1"]) none none) New
    ["-policy-id", "aaaa", "-meta"] []).2.1
    [("aaaa", "aaaa-1")] ["GET /v1/acl/policies"]
    (some { Description := "", Policies := [idLink "aaaa-1"], Local := false,
            Rest := "accessor-1" })
    ["GET /v1/acl/policies", "PUT /v1/acl/token aaaa-1:"]
    (by decide) (by decide) (by decide) (by decide)
    (Resolved.cons (by decide) (Resolved.nil _)) (by decide)
  rw [h]
  decide

/-- C10. The token `Run` submits. The built token has the description and the
local switch of the flags, every other field zero, and as policies exactly one
link by name for each `-policy-name`, in the order given, followed by one link
by ID for each resolver call, in order, the ID being what the resolver
returned; so it has as many links as names and calls, with nothing removed.
Whenever the resolver returns without error for every `-policy-id`, one call
each and in order, `Run` applies `TokenCreate` to exactly this token, in the
world the last resolver call left, and ends in the world that call left with
the error message written or the returned token printed. And every `TokenCreate` call in the log is
such a call: its token is the built one for resolver calls that really returned
these IDs, and what it holds as result is what `TokenCreate` returned for it. -/
theorem Run_submits_built_token (E : Env W κ ρ) (c : cmd) (args : List String) (w : W) :
    (∀ calls : List (String × String),
      builtToken E (parsed E c args w) calls =
        { Description := (parsed E c args w).description
          Policies :=
            ((parsed E c args w).policyNames.map fun n =>
              ({ ID := "", Name := n } : ACLTokenPolicyLink)) ++
            (calls.map fun call => ({ ID := call.2, Name := "" } : ACLTokenPolicyLink))
          Local := (parsed E c args w).local_
          Rest := E.zeroRest } ∧
      (calls.map Prod.fst = (parsed E c args w).policyIDs →
        (builtToken E (parsed E c args w) calls).Policies.length =
          (parsed E c args w).policyNames.length + (parsed E c args w).policyIDs.length)) ∧
    (∀ (calls : List (String × String)) (w3 : W),
      (E.Parse c args w).1.2 = none → ¬ noPolicy (parsed E c args w) →
      (E.APIClient (E.Parse c args w).2).1.2 = none →
      calls.map Prod.fst = (parsed E c args w).policyIDs →
      Resolved E (builtClient E c args w) (clientWorld E c args w) calls w3 →
      tokenCreateCalls (Run E c args w).2.log =
        [(builtToken E (parsed E c args w) calls,
          (E.TokenCreate (builtClient E c args w)
            (builtToken E (parsed E c args w) calls) w3).1.1,
          (E.TokenCreate (builtClient E c args w)
            (builtToken E (parsed E c args w) calls) w3).1.2)] ∧
      (∀ e, (E.TokenCreate (builtClient E c args w)
            (builtToken E (parsed E c args w) calls) w3).1.2 = some e →
        (Run E c args w).1 = 1 ∧
        (Run E c args w).2.world =
          E.UIError (fmtCreate e)
            (E.TokenCreate (builtClient E c args w)
              (builtToken E (parsed E c args w) calls) w3).2) ∧
      ((E.TokenCreate (builtClient E c args w)
            (builtToken E (parsed E c args w) calls) w3).1.2 = none →
        (Run E c args w).1 = 0 ∧
        (Run E c args w).2.world =
          E.PrintToken
            (E.TokenCreate (builtClient E c args w)
              (builtToken E (parsed E c args w) calls) w3).1.1
            (parsed E c args w).showMeta
            (E.TokenCreate (builtClient E c args w)
              (builtToken E (parsed E c args w) calls) w3).2)) ∧
    (∀ tc ∈ tokenCreateCalls (Run E c args w).2.log,
      ∃ (calls : List (String × String)) (w3 w4 : W),
        calls.map Prod.fst = (parsed E c args w).policyIDs ∧
        Resolved E (builtClient E c args w) (clientWorld E c args w) calls w3 ∧
        resolverCalls (Run E c args w).2.log = calls.map (fun call => (call.1, call.2, none)) ∧
        tc.1 = builtToken E (parsed E c args w) calls ∧
        E.TokenCreate (builtClient E c args w) tc.1 w3 = ((tc.2.1, tc.2.2), w4)) := by
  refine ⟨?_, ?_, ?_⟩
  · intro calls
    refine ⟨rfl, ?_⟩
    intro h1
    simp [builtToken, ← h1]
  · intro calls w3 hp hn ha h1 h2
    have h := Run_of_resolved E c args w hp hn ha h1 h2
    cases ht : (E.TokenCreate (builtClient E c args w)
        (builtToken E (parsed E c args w) calls) w3).1.2 with
    | some e =>
      rw [ht] at h
      rw [h]
      refine ⟨by simp, ?_, ?_⟩
      · intro e1 he1
        cases he1
        exact ⟨rfl, rfl⟩
      · intro hc
        cases hc
    | none =>
      rw [ht] at h
      rw [h]
      refine ⟨by simp, ?_, ?_⟩
      · intro e1 he1
        cases he1
      · intro _
        exact ⟨rfl, rfl⟩
  · intro tc htc
    rcases Run_state E c args w with ⟨e, _, h⟩ | ⟨msg, wb, lb, hs, h⟩ |
      ⟨msg, wb, lb, ⟨_, _, _, calls, w3, token, e, h1, h2, ht, _, rfl⟩, h⟩ |
      ⟨_, _, _, calls, w3, token, w4, h1, h2, ht, h⟩
    · simp [h] at htc
    · simp [h, (stoppedBeforeCreate_log hs).1] at htc
    · simp [h] at htc
      subst htc
      exact ⟨calls, w3, wb, h1, h2, by simp [h], rfl, ht⟩
    · simp [h] at htc
      subst htc
      exact ⟨calls, w3, w4, h1, h2, by simp [h], rfl, ht⟩

/-- C10, worked example, with the world a transcript: the same name twice and
the same policy twice (once by partial ID, once by full ID) give four links, and
that is what is submitted. -/
theorem Run_submits_built_token_witness :
    tokenCreateCalls (Run (transcriptEnv (.ok ["aaaa-1"]) none none) New
      ["-policy-id", "aaaa", "-policy-name", "n", "-local", "-policy-name", "n",
       "-description", "d", "-policy-id", "aaaa-1"] []).2.log =
      [({ Description := "d"
          Policies := [nameLink "n", nameLink "n", idLink "aaaa-1", idLink "aaaa-1"]
          Local := true
          Rest := "" },
        some { Description := "d"
               Policies := [nameLink "n", nameLink "n", idLink "aaaa-1", idLink "aaaa-1"]
               Local := true
               Rest := "accessor-1" }, none)] ∧
    (Run (transcriptEnv (.ok ["aaaa-1"]) none none) New
      ["-policy-id", "aaaa", "-policy-name", "n", "-local", "-policy-name", "n",
       "-description", "d", "-policy-id", "aaaa-1"] []).2.world =
      ["GET /v1/acl/policies", "GET /v1/acl/policies",
       "PUT /v1/acl/token :n :n aaaa-1: aaaa-1:", "PrintToken"] := by
  have r2 : Resolved (transcriptEnv (.ok ["aaaa-1"]) none none) () ["GET /v1/acl/policies"]
      [("aaaa-1", "aaaa-1")] ["GET /v1/acl/policies", "GET /v1/acl/policies"] :=
    Resolved.cons (by decide) (Resolved.nil _)
  have r1 : Resolved (transcriptEnv (.ok ["aaaa-1"]) none none) () []
      [("aaaa", "aaaa-1"), ("aaaa-1", "aaaa-1")]
      ["GET /v1/acl/policies", "GET /v1/acl/policies"] :=
    Resolved.cons (by decide) r2
  have h := ((Run_submits_built_token (transcriptEnv (.ok ["aaaa-1"]) none none) New
    ["-policy-id", "aaaa", "-policy-name", "n", "-local", "-policy-name", "n",
     "-description", "d", "-policy-id", "aaaa-1"] []).2.1
    [("aaaa", "aaaa-1"), ("aaaa-1", "aaaa-1")]
    ["GET /v1/acl/policies", "GET /v1/acl/policies"]
    (by decide) (by decide) (by decide) (by decide) r1).1
  exact ⟨h.trans (by decide), by decide⟩

end tokencreate
